import Mathlib

/-!
Verification of the Michael voice-agent call engine.

This file is a shallow embedding, in Lean, of the deterministic parts of the
call-engine server of the repository (the orchestrator in the call server, the
sentiment analyzer in call-server/lib/sentiment.js, the turn-completion
heuristic in call-server/lib/deepgram-stt.js, the TTS response cache in
call-server/lib/elevenlabs-tts.js and the per-call session object), together
with theorems about the embedded definitions.

JavaScript strings are modelled as lists of characters, JavaScript numbers as
rationals where fractional arithmetic occurs and as naturals where the code
only counts, and the regular expressions of the source as terms of a small
executable regular-expression engine with JavaScript test semantics (word
boundaries, end anchor, greedy repetition, ASCII case folding).
-/

/-! ## Character classes (JavaScript semantics, ASCII range) -/

/-- JavaScript word character, the class `\w` = `[A-Za-z0-9_]`. -/
def wordChar (c : Char) : Bool :=
  (65 ≤ c.toNat && c.toNat ≤ 90) || (97 ≤ c.toNat && c.toNat ≤ 122) ||
    (48 ≤ c.toNat && c.toNat ≤ 57) || c = '_'

/-- JavaScript whitespace class `\s` restricted to the characters that occur
in telephone transcripts: space, tab, line feed, carriage return, vertical
tab, form feed and no-break space. -/
def jsSpace (c : Char) : Bool :=
  c = ' ' || c.toNat = 9 || c.toNat = 10 || c.toNat = 13 || c.toNat = 11 ||
    c.toNat = 12 || c.toNat = 160

/-- ASCII lower-casing, the effect of `String.prototype.toLowerCase` on the
ASCII range. -/
def lcChar (c : Char) : Char :=
  if 65 ≤ c.toNat ∧ c.toNat ≤ 90 then Char.ofNat (c.toNat + 32) else c

/-- ASCII decimal digit, the class `\d`. -/
def digitChar (c : Char) : Bool :=
  48 ≤ c.toNat && c.toNat ≤ 57

/-- The apostrophe character, kept out of string literals. -/
def aposC : Char := Char.ofNat 39

/-- The apostrophe as a one-character string. -/
def aposS : String := String.singleton aposC

/-! ## JavaScript string primitives -/

/-- `String.prototype.trim`: drop whitespace from both ends. -/
def jsTrim (l : List Char) : List Char :=
  ((l.dropWhile jsSpace).reverse.dropWhile jsSpace).reverse

/-- `text.toLowerCase()` over a character list. -/
def lcList (l : List Char) : List Char := l.map lcChar

/-- `text.split(/\s+/).filter(Boolean).length`: the number of maximal runs of
non-whitespace characters. -/
def jsWordCount (l : List Char) : Nat :=
  (l.foldl
    (fun st c =>
      if jsSpace c then (false, st.2)
      else (true, if st.1 then st.2 else st.2 + 1))
    ((false : Bool), (0 : Nat))).2

/-- All suffixes of a list together with the character immediately before
the suffix (`none` at the start of the string); these are the candidate match
positions of a regular-expression search. -/
def rePositions (prev : Option Char) (l : List Char) : List (Option Char × List Char) :=
  (prev, l) ::
    match l with
    | [] => []
    | c :: rest => rePositions (some c) rest

/-- `hay.includes(needle)`: substring containment. -/
def strIncludes (hay needle : List Char) : Bool :=
  (rePositions none hay).any (fun p => needle.isPrefixOf p.2)

/-! ## A small regular-expression engine

Just enough of JavaScript regular expressions for the patterns of this
repository: character classes, concatenation, alternation, greedy star,
word boundary `\b` and the end anchor `$`.  Bounded repetitions `{lo,hi}`
and the optional suffix `?` are desugared into these constructors. -/

inductive RE where
  | eps : RE
  | cls (p : Char → Bool) : RE
  | seq (a b : RE) : RE
  | alt (a b : RE) : RE
  | star (a : RE) : RE
  | wordB : RE
  | eos : RE

/-- Greedy star iteration over an already-built matcher `m` for the starred
pattern: try one consuming iteration first, then stop, as JavaScript does.
Every iteration is required to consume at least one character, as in
JavaScript, so fuel exceeding the input length is never exhausted. -/
def reStar (m : Option Char → List Char → List (Option Char × List Char)) :
    Nat → Option Char → List Char → List (Option Char × List Char)
  | 0, prev, l => [(prev, l)]
  | fuel + 1, prev, l =>
      (((m prev l).filter (fun s => s.2.length < l.length)).flatMap
        (fun s => reStar m fuel s.1 s.2)) ++ [(prev, l)]

/-- Nondeterministic matcher.  `reMatch fuel r prev l` returns, in JavaScript
backtracking order (greedy star, left alternative first), the list of
`(previous character, remaining input)` states after matching `r` at the
position whose remaining input is `l` and whose preceding character is
`prev`. -/
def reMatch (fuel : Nat) (r : RE) : Option Char → List Char → List (Option Char × List Char) :=
  match r with
  | .eps => fun prev l => [(prev, l)]
  | .cls p => fun _ l =>
      match l with
      | [] => []
      | c :: rest => if p c then [(some c, rest)] else []
  | .seq a b => fun prev l =>
      (reMatch fuel a prev l).flatMap (fun s => reMatch fuel b s.1 s.2)
  | .alt a b => fun prev l => reMatch fuel a prev l ++ reMatch fuel b prev l
  | .wordB => fun prev l =>
      let pw := match prev with | none => false | some c => wordChar c
      let nw := match l with | [] => false | c :: _ => wordChar c
      if pw ≠ nw then [(prev, l)] else []
  | .eos => fun prev l => match l with | [] => [(prev, l)] | _ :: _ => []
  | .star a => reStar (reMatch fuel a) fuel

/-- `pattern.test(s)`: does the pattern match starting at some position? -/
def reTest (r : RE) (s : List Char) : Bool :=
  (rePositions none s).any (fun p => !(reMatch (s.length + 2) r p.1 p.2).isEmpty)

/-- Leftmost match, backtracking-first at the match position, as returned by
`s.match(pattern)[0]`: the matched substring, if any. -/
def reFindAux (r : RE) (fuel : Nat) : List (Option Char × List Char) → Option (List Char)
  | [] => none
  | p :: rest =>
      match reMatch fuel r p.1 p.2 with
      | [] => reFindAux r fuel rest
      | s :: _ => some (p.2.take (p.2.length - s.2.length))

/-- First match of a pattern in a string, as `s.match(pattern)` captures it. -/
def reFind (r : RE) (s : List Char) : Option (List Char) :=
  reFindAux r (s.length + 2) (rePositions none s)

/-! Pattern construction helpers. -/

/-- A single literal character, matched case-insensitively (all patterns of
the source either carry the `i` flag or are applied to lower-cased text). -/
def rchari (c : Char) : RE := RE.cls (fun x => lcChar x = lcChar c)

/-- A single literal character, matched exactly. -/
def rchar (c : Char) : RE := RE.cls (fun x => x = c)

/-- A case-insensitive literal string. -/
def rstr (s : String) : RE :=
  s.data.foldr (fun c acc => RE.seq (rchari c) acc) RE.eps

/-- Concatenation of a list of patterns. -/
def rcat (rs : List RE) : RE := rs.foldr RE.seq RE.eps

/-- Alternation over a list of patterns, left to right. -/
def ralts (rs : List RE) : RE :=
  match rs with
  | [] => RE.cls (fun _ => false)
  | r :: rest => rest.foldl RE.alt r

/-- The suffix `?`: zero or one occurrence, greedy. -/
def ropt (r : RE) : RE := RE.alt r RE.eps

/-- Exactly `n` occurrences. -/
def rexact (r : RE) (n : Nat) : RE := rcat (List.replicate n r)

/-- The bounded repetition `{lo,hi}`, greedy. -/
def rrange (r : RE) (lo hi : Nat) : RE :=
  RE.seq (rexact r lo) (rcat (List.replicate (hi - lo) (ropt r)))

/-- The class `\d`. -/
def rdigit : RE := RE.cls digitChar

/-- The class `\s`. -/
def rsp : RE := RE.cls jsSpace

/-- The pattern `\s*`. -/
def rsp0 : RE := RE.star rsp

/-- The pattern `\s+`. -/
def rsp1 : RE := RE.seq rsp rsp0

/-- The dot `.`: any character other than a line terminator. -/
def rdot : RE := RE.cls (fun c => !(c.toNat = 10 || c.toNat = 13))

/-- The word boundary `\b`. -/
def rb : RE := RE.wordB

/-- The end anchor `$`. -/
def rend : RE := RE.eos

/-! ## Turn-completion heuristic (call-server/lib/deepgram-stt.js)

`MID_THOUGHT_PATTERNS`, `END_OF_TURN_PATTERNS` (lines 23-37) and
`analyzeTurnCompletion` (lines 46-61). -/

/-- The three turn statuses produced by the heuristic. -/
inductive TurnStatus where
  | complete : TurnStatus
  | midThought : TurnStatus
  | ambiguous : TurnStatus
deriving DecidableEq, Repr

/-- Sentence-final punctuation class `[.!?]`. -/
def rpunct : RE := RE.cls (fun c => c = '.' || c = '!' || c = '?')

/-- `MID_THOUGHT_PATTERNS`: trailing conjunction, trailing comma, trailing
hedge, trailing cliffhanger phrase. -/
def midThoughtPatterns : List RE :=
  [ rcat [rb, ralts [rstr "and", rstr "but", rstr "so", rstr "because", rstr "however",
      rstr "also", rstr "plus", rstr "actually", rstr "basically", rstr "well"], rsp0, rend],
    rcat [rchar ',', rsp0, rend],
    rcat [rb, ralts [rstr "i think", rstr "i mean", rstr "you know", rstr "like"], rsp0, rend],
    rcat [rb, ralts [rstr "the thing is", rstr ("here" ++ aposS ++ "s what"),
      rstr ("what i" ++ aposS ++ "m saying is")], rsp0, rend] ]

/-- `END_OF_TURN_PATTERNS`: trailing punctuation, trailing short
affirmative, trailing goodbye, trailing check-in question, trailing closer. -/
def endOfTurnPatterns : List RE :=
  [ rcat [rpunct, rsp0, rend],
    rcat [rb, ralts [rstr "right", rstr "okay", rstr "sure", rstr "yeah", rstr "yes",
      rstr "no", rstr "nah", rstr "nope"], rsp0, ropt rpunct, rsp0, rend],
    rcat [rb, ralts [rstr "bye", rstr "goodbye", rstr "take care", rstr "have a good one"],
      rsp0, ropt rpunct, rsp0, rend],
    rcat [rb, ralts [rstr "what do you think", rstr "does that make sense",
      rstr "you know what i mean"], rsp0, ropt rpunct, rsp0, rend],
    rcat [rb, ralts [rstr ("that" ++ aposS ++ "s it"), rstr ("that" ++ aposS ++ "s all"),
      rstr ("i" ++ aposS ++ "m done")], rsp0, ropt rpunct, rsp0, rend] ]

/-- `analyzeTurnCompletion` (deepgram-stt.js lines 46-61): empty text is
ambiguous; otherwise end-of-turn patterns are checked first, then mid-thought
patterns, then the three-word rule, and the default is ambiguous. -/
def analyzeTurnCompletion (text : List Char) : TurnStatus :=
  if jsTrim text = [] then .ambiguous
  else
    let trimmed := jsTrim text
    if endOfTurnPatterns.any (fun p => reTest p trimmed) then .complete
    else if midThoughtPatterns.any (fun p => reTest p trimmed) then .midThought
    else if jsWordCount trimmed ≤ 3 then .complete
    else .ambiguous

/-! ## Sentiment analyzer (call-server/lib/sentiment.js)

`POSITIVE_SIGNALS` (lines 15-30), `NEGATIVE_SIGNALS` (lines 33-49),
`analyzeUtterance` (lines 57-91) and the score/label update of
`updateSentiment` (lines 100-121).  The `signals` strings returned by
`analyzeUtterance` only feed a log line and are not modelled. -/

/-- The five sentiment labels. -/
inductive SentLabel where
  | hostile : SentLabel
  | negative : SentLabel
  | neutral : SentLabel
  | positive : SentLabel
  | enthusiastic : SentLabel
deriving DecidableEq, Repr

/-- `POSITIVE_SIGNALS`: weighted positive patterns. -/
def positiveSignals : List (RE × ℚ) :=
  [ (rcat [rstr "that", ralts [rstr (aposS ++ "s"), rstr " is"], rstr " ",
      ralts [rstr "great", rstr "awesome", rstr "amazing", rstr "fantastic",
        rstr "perfect", rstr "excellent"]], 3),
    (rcat [rstr "i", ralts [rstr (aposS ++ "m"), rstr " am"], rstr " ",
      ralts [rstr "interested", rstr "intrigued", rstr "curious"]], 3),
    (rstr "tell me more", 2),
    (rcat [rstr "how ", ralts [rstr "does", rstr "would", rstr "can"], rstr " ",
      ralts [rstr "that", rstr "it", rstr "this"], rstr " work"], 2),
    (rcat [rstr "sounds ", ralts [rstr "good", rstr "great", rstr "interesting",
      rstr "promising"]], 2),
    (rstr "that makes sense", 1),
    (rcat [rb, ralts [rstr "yeah", rstr "yes", rstr "sure", rstr "absolutely",
      rstr "definitely"], rb], 1),
    (rcat [rstr "i ", ralts [rstr "like", rstr "love", rstr "appreciate"],
      rstr " that"], 2),
    (rcat [rstr "we", ralts [rstr (aposS ++ "ve"), rstr " have"], rstr " been ",
      ralts [rstr "looking", rstr "searching", rstr "thinking"]], 3),
    (rcat [rstr "what", ralts [rstr (aposS ++ "s"), rstr " is"], rstr " the ",
      ralts [rstr "price", rstr "cost", rstr "investment"]], 2),
    (rstr "can you send me", 2),
    (rcat [rstr "let", ralts [rstr (aposS ++ "s"), rstr " us"], rstr " ",
      ralts [rstr "set up", rstr "schedule", rstr "book"]], 4),
    (rcat [rstr "i", ralts [rstr (aposS ++ "d"), rstr " would"], rstr " ",
      ralts [rstr "like", rstr "love"], rstr " to"], 2),
    (ralts [rcat [rb, rstr "haha"], rstr "lol", rcat [rstr "funny", rb]], 1) ]

/-- `NEGATIVE_SIGNALS`: weighted negative patterns (weights already negative). -/
def negativeSignals : List (RE × ℚ) :=
  [ (rstr "not interested", -3),
    (rstr "no thanks", -2),
    (rstr "stop calling", -5),
    (rstr "take me off", -5),
    (rcat [rstr ("don" ++ aposS ++ "t call "), ralts [rstr "me ", rstr "again"]], -5),
    (rcat [rstr "waste ", ralts [rstr "of ", rstr "my "], rstr "time"], -4),
    (rcat [rb, ralts [rstr "annoying", rstr "annoyed", rstr "frustrated",
      rstr "irritated"], rb], -3),
    (rcat [rstr "i", ralts [rstr (aposS ++ "m"), rstr " am"], rstr " ",
      ralts [rstr "busy", rstr "in a meeting", rstr "driving"]], -2),
    (rcat [rstr "we", ralts [rstr (aposS ++ "re"), rstr " are"], rstr " ",
      ralts [rstr "good", rstr "fine", rstr "all set", rstr "happy"], rstr " ",
      ralts [rstr "with", rstr "as"]], -2),
    (rcat [rstr "already ", ralts [rstr "have", rstr "using", rstr "got"]], -1),
    (rstr "too expensive", -2),
    (rstr "no budget", -2),
    (rcat [rstr "send ", ropt (ralts [rstr "me ", rstr "an "]), rstr "email"], -1),
    (rcat [rstr "who ", ralts [rstr "is this", rstr "are you", rstr "gave you"]], -2),
    (rcat [rstr "how did you get ", ralts [rstr "my", rstr "this"]], -3) ]

/-- The pattern-weighted part of the delta of `analyzeUtterance`: the sum of
the weights of the positive and negative signals that match. -/
def patternDelta (text : List Char) : ℚ :=
  (negativeSignals.foldl (fun a s => if reTest s.1 text then a + s.2 else a)
    (positiveSignals.foldl (fun a s => if reTest s.1 text then a + s.2 else a) 0))

/-- `analyzeUtterance` (sentiment.js lines 57-91), reduced to its delta:
whitespace-only text yields 0; otherwise the pattern-weighted delta, minus
0.5 when the utterance has at most two words and the delta so far is zero,
plus 1 when it has more than twenty words and the delta so far is
non-negative. -/
def analyzeUtterance (text : List Char) : ℚ :=
  if jsTrim text = [] then 0
  else
    let d0 := patternDelta text
    let wc := jsWordCount text
    let d1 := if wc ≤ 2 ∧ d0 = 0 then d0 - 1/2 else d0
    let d2 := if 20 < wc ∧ 0 ≤ d1 then d1 + 1 else d1
    d2

/-- The clamp of the sentiment update rule: `Math.max(-10, Math.min(10, x))`. -/
def clampScore (x : ℚ) : ℚ := max (-10) (min 10 x)

/-- The score half of `updateSentiment` (sentiment.js lines 104-106):
85 percent of the previous score plus the delta of the utterance, clamped. -/
def updateSentimentScore (prev : ℚ) (text : List Char) : ℚ :=
  clampScore (prev * (85/100) + analyzeUtterance text)

/-- The label thresholds of `updateSentiment` (sentiment.js lines 109-114). -/
def sentimentLabelOf (score : ℚ) : SentLabel :=
  if score ≤ -6 then .hostile
  else if score ≤ -2 then .negative
  else if score ≤ 2 then .neutral
  else if score ≤ 6 then .positive
  else .enthusiastic

/-- `updateSentiment` as a pure function of the previous score and the
utterance: the new score and the label derived from it. -/
def updateSentiment (prev : ℚ) (text : List Char) : ℚ × SentLabel :=
  let s := updateSentimentScore prev text
  (s, sentimentLabelOf s)

/-- `Math.round(x * 10) / 10`, used when recording sentiment history;
JavaScript `Math.round` is floor of the argument plus one half. -/
def jsRound1 (x : ℚ) : ℚ := (⌊x * 10 + 1/2⌋ : ℚ) / 10

/-! ## Intent detectors of the call server

`OPT_OUT_PATTERNS` / `detectOptOut` (server lines 423-436),
`GATEKEEPER_PATTERNS` / `detectGatekeeper` (lines 439-454),
`CALLBACK_PATTERNS` / `detectCallbackRequest` (lines 457-468) and the
callback-time capture pattern (line 641). -/

/-- `OPT_OUT_PATTERNS`: the eight opt-out patterns of the server. -/
def optOutPatterns : List RE :=
  [ rcat [rb, ralts [rstr "quit", rstr "cancel", rstr "unsubscribe"], rb],
    rcat [rb, rstr "stop", rsp0, ralts [rstr "calling", rstr "contacting",
      rstr "this", rstr "it"], rb],
    rcat [rb, rstr "stop", rsp0, rend],
    rcat [rb, rstr "take me off"],
    rcat [rb, rstr ("don" ++ aposS ++ "t call "), ralts [rstr "me", rstr "again"]],
    rcat [rb, rstr "remove ", ralts [rstr "me", rstr "my number"]],
    rcat [rb, rstr "do not call"],
    rcat [rb, rstr "no more calls"] ]

/-- `detectOptOut`. -/
def detectOptOut (text : List Char) : Bool :=
  optOutPatterns.any (fun p => reTest p text)

/-- `GATEKEEPER_PATTERNS`. -/
def gatekeeperPatterns : List RE :=
  [ rcat [rb, rstr "who", ralts [rstr (aposS ++ "s"), rstr " is"], rstr " calling"],
    rcat [rb, rstr "what", ralts [rstr (aposS ++ "s"), rstr " is"], rstr " ",
      ralts [rstr "this", rstr "it"], rstr " ",
      ralts [rstr "regarding", rstr "about", rstr "in reference"]],
    rcat [rb, rstr "can i ", ropt (ralts [rstr "ask ", rstr "tell her ", rstr "tell him "]),
      rstr "what ", ralts [rstr "this", rstr "it"],
      ralts [rstr (aposS ++ "s"), rstr " is"], rstr " ",
      ralts [rstr "about", rstr "regarding"]],
    rcat [rb, ralts [rstr "he", rstr "she"], ralts [rstr (aposS ++ "s"), rstr " is"],
      rstr " ", ralts [rstr "not available", rstr "in a meeting", rstr "busy",
        rstr "out", rstr "unavailable"]],
    rcat [rb, rstr "let me ", ralts [rstr "transfer", rstr "connect",
      rstr "put you through"]],
    rcat [rb, ralts [rstr "receptionist", rstr "front desk", rstr "operator"],
      rstr " speaking"],
    rcat [rb, rstr "this is ", rrange rdot 1 20, rchar aposC, rstr "s ",
      ralts [rstr "office", rstr "assistant"]],
    rcat [rb, rstr "i", ralts [rstr (aposS ++ "ll"), rstr " will"], rstr " see if"],
    rcat [rb, rstr "can i take a message"],
    rcat [rb, rstr "may i ask who"] ]

/-- `detectGatekeeper`. -/
def detectGatekeeper (text : List Char) : Bool :=
  gatekeeperPatterns.any (fun p => reTest p text)

/-- `CALLBACK_PATTERNS`. -/
def callbackPatterns : List RE :=
  [ rcat [rb, rstr "call ", ropt (rstr "me "), ralts [rstr "back", rstr "later",
      rstr "another time", rstr "tomorrow", rstr "next week"]],
    rcat [rb, ralts [rstr "bad", rstr "terrible", rstr "wrong"], rstr " time"],
    rcat [rb, ralts [rstr "busy", rstr "swamped", rstr "slammed", rstr "in a meeting",
      rstr "driving", rstr ("can" ++ aposS ++ "t talk")]],
    rcat [rb, rstr "not a good time"],
    rcat [rb, rstr "try ", ropt (rstr "me "), ralts [rstr "again", rstr "back",
      rstr "later"]],
    rcat [rb, rstr "can you ", ralts [rstr "call", rstr "reach", rstr "try"],
      rstr " ", ralts [rstr "back", rstr "again", rstr "later"]] ]

/-- `detectCallbackRequest`. -/
def detectCallbackRequest (text : List Char) : Bool :=
  callbackPatterns.any (fun p => reTest p text)

/-- The callback-time capture pattern of `processUserTurn` (server line 641):
a clock time with meridiem, a time of day, or a near-term day word. -/
def callbackTimeRe : RE :=
  ralts
    [ rcat [rrange rdigit 1 2, ropt (rcat [rchar ':', rexact rdigit 2]), rsp0,
        ralts [rstr "am", rstr "pm"]],
      rcat [rb, ralts [rstr "morning", rstr "afternoon", rstr "evening"], rb],
      rcat [rb, ralts [rstr "tomorrow", rstr "monday", rstr "tuesday",
        rstr "wednesday", rstr "thursday", rstr "friday"], rb] ]

/-- The gatekeeper-navigation recognition cue of `processUserTurn`
(server line 626). -/
def navigationCueRe : RE :=
  rcat [rb, ralts [rstr "speaking", rstr "here", rstr "this is", rstr "hi",
    rstr "hello"], rb]

/-! ## Meeting-booked detector (server lines 1045-1106) -/

/-- Step 1 of `detectMeetingBooked`: the specific-time patterns, a one- or
two-digit hour with a meridiem or a clock time with minutes. -/
def specificTimePatterns : List RE :=
  [ rcat [rb, rrange rdigit 1 2, rsp0, ralts [rstr "am", rstr "pm",
      rcat [rchari 'a', rchar '.', rchari 'm', rchar '.'],
      rcat [rchari 'p', rchar '.', rchari 'm', rchar '.']], rb],
    rcat [rb, rrange rdigit 1 2, rchar ':', rexact rdigit 2, rb] ]

/-- `combined` contains a specific time. -/
def hasSpecificTime (combined : List Char) : Bool :=
  specificTimePatterns.any (fun p => reTest p combined)

/-- The weekday alternation shared by the day patterns. -/
def weekdayAlt : RE :=
  ralts [rstr "monday", rstr "tuesday", rstr "wednesday", rstr "thursday",
    rstr "friday", rstr "saturday", rstr "sunday"]

/-- Step 2 of `detectMeetingBooked`: the specific-day patterns: a weekday,
tomorrow, a month with a day number, or next/this plus a weekday. -/
def specificDayPatterns : List RE :=
  [ rcat [rb, weekdayAlt, rb],
    rcat [rb, rstr "tomorrow", rb],
    rcat [rb, ralts [rstr "january", rstr "february", rstr "march", rstr "april",
      rstr "may", rstr "june", rstr "july", rstr "august", rstr "september",
      rstr "october", rstr "november", rstr "december"], rsp1,
      rrange rdigit 1 2, rb],
    rcat [rb, rstr "next", rsp1, weekdayAlt, rb],
    rcat [rb, rstr "this", rsp1, weekdayAlt, rb] ]

/-- `combined` contains a specific day. -/
def hasSpecificDay (combined : List Char) : Bool :=
  specificDayPatterns.any (fun p => reTest p combined)

/-- Step 3 of `detectMeetingBooked`: the confirmation phrases looked up as
substrings of the lower-cased user text. -/
def confirmPhrases : List String :=
  [ "that works", "works for me", "that time works", "that day works",
    "let" ++ aposS ++ "s do it", "book it", "let" ++ aposS ++ "s book it",
    "see you then", "looking forward", "i" ++ aposS ++ "ll be there",
    "count me in", "put me down", "lock it in", "i can do that",
    "i" ++ aposS ++ "m available then", "sounds good", "sounds great",
    "sounds perfect", "perfect let" ++ aposS ++ "s do", "yes that works",
    "yeah that works", "sure that works", "ok that works", "great see you" ]

/-- Step 3 of `detectMeetingBooked`: the confirmation patterns tested
against the lower-cased user text. -/
def confirmWithTimePatterns : List RE :=
  [ rcat [rb, weekdayAlt, rsp1, ralts [rstr "works", rstr "is good",
      rstr "is fine", rstr "is perfect"], rb],
    rcat [rb, rrange rdigit 1 2, rsp0, ralts [rstr "am", rstr "pm"], rsp1,
      ralts [rstr "works", rstr "is good", rstr "is fine", rstr "is perfect"], rb],
    rcat [rb, ralts [rstr "yes", rstr "yeah", rstr "yep", rstr "sure"],
      rrange rdot 0 20, ralts [rstr "works", rstr "book", rstr "schedule",
        rstr "perfect", rstr "great", rstr "do it", rstr "see you"]],
    rcat [rb, ralts [rstr "works", rstr "perfect", rstr "great"],
      rrange rdot 0 20, ralts [rstr "see you", rstr "looking forward",
        rstr ("i" ++ aposS ++ "ll be there")]] ]

/-- The prospect confirmed: a confirmation phrase occurs in the user text or
a confirmation pattern matches it. -/
def prospectConfirmed (userLower : List Char) : Bool :=
  confirmPhrases.any (fun p => strIncludes userLower p.data) ||
    confirmWithTimePatterns.any (fun p => reTest p userLower)

/-- Step 4 of `detectMeetingBooked`: the scheduling phrases looked up as
substrings of the lower-cased assistant text. -/
def schedulingPhrases : List String :=
  [ "how about", "does that work", "would that work", "can you do",
    "let me book", "i" ++ aposS ++ "ll send", "calendar invite", "schedule",
    "book a time", "set up a meeting", "i" ++ aposS ++ "ve got you down",
    "pencil you in", "block off", "work for you" ]

/-- Michael proposed the meeting with scheduling language. -/
def michaelProposed (michaelLower : List Char) : Bool :=
  schedulingPhrases.any (fun p => strIncludes michaelLower p.data)

/-- The combined text of `detectMeetingBooked`: the lower-cased assistant
text, a space, and the lower-cased user text. -/
def combinedText (michaelText userText : List Char) : List Char :=
  lcList michaelText ++ [' '] ++ lcList userText

/-- `detectMeetingBooked` (server lines 1045-1106), with the early returns of
the source: both a specific time and a specific day, then the prospect
confirmation, then the scheduling proposal. -/
def detectMeetingBooked (michaelText userText : List Char) : Bool :=
  let michaelLower := lcList michaelText
  let userLower := lcList userText
  let combined := combinedText michaelText userText
  if !(hasSpecificTime combined) || !(hasSpecificDay combined) then false
  else if !(prospectConfirmed userLower) then false
  else if !(michaelProposed michaelLower) then false
  else true

/-! ## TTS response cache (call-server/lib/elevenlabs-tts.js)

`normalizeForCache` (line 50), `getCachedAudio` (lines 54-65),
`setCachedAudio` (lines 67-88) and the caching decision of
`synthesizeSpeech` (lines 118-140).  Audio buffers are abstracted to
identifiers; the JavaScript `Map` is modelled as an insertion-ordered
association list with unique keys, which is its iteration semantics.
Cache warming (lines 94-109) inserts the eight fixed phrases through
`setCachedAudio` and is therefore covered by the same step function. -/

/-- A cache entry: creation time, audio buffer and hit counter. -/
structure CacheEntry where
  createdAt : Nat
  buf : Nat
  hitCount : Nat
deriving DecidableEq, Repr

/-- The response cache: an insertion-ordered association list. -/
abbrev TtsCache := List (List Char × CacheEntry)

/-- `Map.prototype.get`. -/
def mapGet : TtsCache → List Char → Option CacheEntry
  | [], _ => none
  | (k', v) :: rest, k => if k' = k then some v else mapGet rest k

/-- `Map.prototype.set`: replace in place when the key exists, else append. -/
def mapSet : TtsCache → List Char → CacheEntry → TtsCache
  | [], k, v => [(k, v)]
  | (k', v') :: rest, k, v =>
      if k' = k then (k, v) :: rest else (k', v') :: mapSet rest k v

/-- `Map.prototype.delete`: remove the entry with the key, if present. -/
def mapDelete : TtsCache → List Char → TtsCache
  | [], _ => []
  | (k', v') :: rest, k => if k' = k then rest else (k', v') :: mapDelete rest k

/-- `normalizeForCache` (elevenlabs-tts.js line 50): trim, lower-case, strip
everything that is neither a word character nor whitespace. -/
def normalizeForCache (text : List Char) : List Char :=
  (lcList (jsTrim text)).filter (fun c => wordChar c || jsSpace c)

/-- `CACHE_MAX_SIZE` (line 33). -/
def cacheMaxSize : Nat := 50

/-- `CACHE_TTL_MS` (line 34): one hour. -/
def cacheTtlMs : Nat := 3600000

/-- The eviction scan of `setCachedAudio` (lines 72-79): walk the cache in
insertion order keeping the first entry whose creation time is strictly
below the best so far. -/
def oldestScan : TtsCache → Option (List Char × Nat) → Option (List Char × Nat)
  | [], best => best
  | (k, v) :: rest, best =>
      oldestScan rest
        (match best with
          | none => some (k, v.createdAt)
          | some b => if v.createdAt < b.2 then some (k, v.createdAt) else some b)

/-- The key evicted when the cache is at capacity. -/
def oldestKey (m : TtsCache) : Option (List Char) :=
  (oldestScan m none).map (fun p => p.1)

/-- `getCachedAudio` (lines 54-65): return the buffer and bump the hit count
when the entry exists and is younger than the TTL; otherwise nothing.  The
global hit/miss statistics only feed the health endpoint and are not
modelled. -/
def getCachedAudio (m : TtsCache) (now : Nat) (text : List Char) :
    Option Nat × TtsCache :=
  let key := normalizeForCache text
  match mapGet m key with
  | some e =>
      if now - e.createdAt < cacheTtlMs then
        (some e.buf, mapSet m key { e with hitCount := e.hitCount + 1 })
      else (none, m)
  | none => (none, m)

/-- `setCachedAudio` (lines 67-88): evict the oldest entry when at capacity,
then insert the new entry at the normalized key. -/
def setCachedAudio (m : TtsCache) (now : Nat) (text : List Char) (buf : Nat) :
    TtsCache :=
  let key := normalizeForCache text
  let m1 :=
    if cacheMaxSize ≤ m.length then
      match oldestKey m with
      | some k => mapDelete m k
      | none => m
    else m
  mapSet m1 key { createdAt := now, buf := buf, hitCount := 0 }

/-- The cache effect of one `synthesizeSpeech` call (lines 118-140):
whitespace-only text is rejected; a fresh synthesis result (`ttsResult`,
`none` when the external TTS failed) is cached only when the raw text has
fewer than 100 characters. -/
def synthesizeStep (m : TtsCache) (now : Nat) (text : List Char)
    (ttsResult : Option Nat) : TtsCache :=
  if jsTrim text = [] then m
  else
    let g := getCachedAudio m now text
    match g.1 with
    | some _ => g.2
    | none =>
        match ttsResult with
        | some buf => if text.length < 100 then setCachedAudio m now text buf else m
        | none => m

/-- One synthesize call for a run of the cache: the spoken text, the wall
clock at the call, and the outcome of the external TTS. -/
structure SynthOp where
  text : List Char
  now : Nat
  ttsResult : Option Nat

/-- A run of `synthesizeSpeech` calls against the process-global cache,
starting empty. -/
def runSynth (ops : List SynthOp) : TtsCache :=
  ops.foldl (fun m op => synthesizeStep m op.now op.text op.ttsResult) []

/-! ## Call session (lib/call-session.js) and the turn processor

The session structure carries the mutable fields touched by
`processUserTurn` (server lines 576-751), plus the `isProcessingResponse`
closure variable of `handleMediaStream` (line 485).  WebSocket handles and
log-only fields are not part of the model; the oracle below stands for the
external services awaited inside the turn (LLM, TTS) and the state of the
media channel at the send sites. -/

/-- Message roles of the conversation history. -/
inductive Role where
  | assistant : Role
  | user : Role
deriving DecidableEq, Repr

/-- The objection patterns of `CallSession.addMessage`
(call-session.js lines 170-175). -/
def objectionPatterns : List RE :=
  [ rstr "not interested", rstr "no thanks",
    rstr ("we" ++ aposS ++ "re good"), rstr ("don" ++ aposS ++ "t need"),
    rstr "too expensive", rstr "no budget", rstr "bad time",
    rstr "busy right now", rstr "already have",
    rcat [rstr "using ", rdot, RE.star rdot, rstr " competitor"],
    rstr "send me an email", rstr "take me off",
    rstr ("don" ++ aposS ++ "t call"), rstr "how did you get" ]

/-- The four BANT qualification patterns of `addMessage`
(call-session.js lines 181-184). -/
def bantBudgetRe : RE :=
  ralts [rstr "budget", rstr "cost", rstr "price", rstr "afford", rstr "spend",
    rstr "invest"]

/-- BANT authority pattern. -/
def bantAuthorityRe : RE :=
  ralts [rstr "decision", rstr "approve", rstr "sign off", rstr "manager",
    rstr "boss", rstr "ceo", rstr "cto"]

/-- BANT need pattern. -/
def bantNeedRe : RE :=
  ralts [rstr "need", rstr "problem", rstr "challenge", rstr "pain",
    rstr "struggle", rstr "issue"]

/-- BANT timeline pattern. -/
def bantTimelineRe : RE :=
  ralts [rstr "when", rstr "timeline", rstr "quarter", rstr "month", rstr "week",
    rstr "soon", rstr "urgency"]

/-- The mutable session state seen by the turn processor. -/
structure SessionSt where
  firstName : List Char
  messages : List (Role × List Char)
  transcript : List (List Char × List Char × Nat)
  michaelWordCount : Nat
  prospectWordCount : Nat
  objectionCount : Nat
  budgetQ : Bool
  authorityQ : Bool
  needQ : Bool
  timelineQ : Bool
  qualificationDepth : Nat
  isProcessingResponse : Bool
  openingCooldown : Bool
  isVoicemail : Bool
  nonEnglishDetected : Bool
  isGatekeeper : Bool
  gatekeeperNavigated : Bool
  callbackRequested : Bool
  callbackTime : Option (List Char)
  sentimentScore : ℚ
  sentimentLabel : SentLabel
  sentimentHistory : List (Nat × ℚ × SentLabel)
  meetingBooked : Bool
deriving DecidableEq, Repr

/-- The display speaker of a transcript line (call-session.js line 155):
Michael for the assistant, else the configured first name with the
prospect fallback. -/
def speakerOf (s : SessionSt) (role : Role) : List Char :=
  match role with
  | .assistant => "Michael".data
  | .user => if s.firstName = [] then "Prospect".data else s.firstName

/-- `CallSession.addMessage` (call-session.js lines 149-187): append to
history and transcript, add the word count to the speaking side, and for
user messages track objections and the BANT checklist. -/
def addMessage (s : SessionSt) (role : Role) (content : List Char) (now : Nat) :
    SessionSt :=
  let wc := jsWordCount content
  let s1 := { s with
    messages := s.messages ++ [(role, content)],
    transcript := s.transcript ++ [(speakerOf s role, content, now)],
    michaelWordCount :=
      if role = .assistant then s.michaelWordCount + wc else s.michaelWordCount,
    prospectWordCount :=
      if role = .assistant then s.prospectWordCount else s.prospectWordCount + wc }
  match role with
  | .assistant => s1
  | .user =>
      let b := s1.budgetQ || reTest bantBudgetRe content
      let a := s1.authorityQ || reTest bantAuthorityRe content
      let n := s1.needQ || reTest bantNeedRe content
      let t := s1.timelineQ || reTest bantTimelineRe content
      { s1 with
        objectionCount :=
          if objectionPatterns.any (fun p => reTest p content) then
            s1.objectionCount + 1
          else s1.objectionCount,
        budgetQ := b, authorityQ := a, needQ := n, timelineQ := t,
        qualificationDepth :=
          (if b then 1 else 0) + (if a then 1 else 0) + (if n then 1 else 0) +
            (if t then 1 else 0) }

/-- The session half of `updateSentiment` (sentiment.js lines 100-121):
store the new score and label and push a history point at the current
transcript index with the score rounded to one decimal. -/
def updateSentimentSession (s : SessionSt) (text : List Char) : SessionSt :=
  let sc := updateSentimentScore s.sentimentScore text
  let lb := sentimentLabelOf sc
  { s with
    sentimentScore := sc,
    sentimentLabel := lb,
    sentimentHistory := s.sentimentHistory ++ [(s.transcript.length, jsRound1 sc, lb)] }

/-- The observer events broadcast from the turn processor. -/
inductive UiEvent where
  | userSpeech (text : List Char) : UiEvent
  | michaelSpeech (text : List Char) : UiEvent
  | statusThinking : UiEvent
  | statusSpeaking : UiEvent
  | statusListening : UiEvent
  | optOutDetected : UiEvent
  | gatekeeperDetected : UiEvent
  | gatekeeperNavigated : UiEvent
  | callbackRequested : UiEvent
  | sentimentUpdate (score : ℚ) (label : SentLabel) : UiEvent
  | meetingBooked : UiEvent
deriving DecidableEq, Repr

/-- Outcomes of the external calls awaited inside one turn: the LLM response
(`none` when `generateResponse` throws), the TTS buffer (`none` when
synthesis returns null), whether the media channel is open with a stream id
at the audio-send sites, and the wall clock. -/
structure TurnOracle where
  llmResponse : Option (List Char)
  ttsAudio : Option Nat
  mediaReady : Bool
  now : Nat

/-- Everything one call of the turn processor does: the new session state,
the observer events in emission order, how many LLM generations it started,
the delay of a scheduled hangup, whether the meeting-booked graceful-close
timer was scheduled, and whether response audio was sent. -/
structure TurnOut where
  state : SessionSt
  events : List UiEvent
  llmCalls : Nat
  hangupDelayMs : Option Nat
  closingTimerScheduled : Bool
  audioSent : Bool
deriving DecidableEq, Repr

/-- A turn that returns without doing anything. -/
def noTurn (s : SessionSt) : TurnOut :=
  { state := s, events := [], llmCalls := 0, hangupDelayMs := none,
    closingTimerScheduled := false, audioSent := false }

/-- The fixed opt-out acknowledgement (server line 599). -/
def optOutResponse : List Char :=
  ("Absolutely, I" ++ aposS ++ "ll make sure you" ++ aposS ++
    "re removed from our list right away. Sorry for the interruption, and have a great day.").data

/-- `processUserTurn` (server lines 576-751) as a function of the session
state, the dispatched text and the oracle: the guards in source order
(blank text, response in flight, opening cooldown with history-only
recording, voicemail), then opt-out short-circuit, gatekeeper and callback
detection, the sentiment update, the non-English short-circuit, and the
guarded generation with the meeting-booked branch; the `finally` clears the
in-flight flag on both generation outcomes. -/
def processUserTurn (s : SessionSt) (fullText : List Char) (o : TurnOracle) :
    TurnOut :=
  if jsTrim fullText = [] then noTurn s
  else if s.isProcessingResponse then noTurn s
  else if s.openingCooldown then
    { state := addMessage s .user fullText o.now,
      events := [.userSpeech fullText], llmCalls := 0, hangupDelayMs := none,
      closingTimerScheduled := false, audioSent := false }
  else if s.isVoicemail then noTurn s
  else
    let s1 := addMessage s .user fullText o.now
    if detectOptOut fullText then
      let s2 := addMessage { s1 with isProcessingResponse := true }
        .assistant optOutResponse o.now
      { state := s2,
        events := [.userSpeech fullText, .optOutDetected,
          .michaelSpeech optOutResponse, .statusSpeaking],
        llmCalls := 0,
        hangupDelayMs := some 4000,
        closingTimerScheduled := false,
        audioSent := o.ttsAudio.isSome && o.mediaReady }
    else
      let gkHit := !s1.gatekeeperNavigated && detectGatekeeper fullText
      let s2 := if gkHit then { s1 with isGatekeeper := true } else s1
      let navHit := s2.isGatekeeper &&
        strIncludes (lcList fullText) (lcList s2.firstName) &&
        reTest navigationCueRe fullText
      let s3 :=
        if navHit then { s2 with isGatekeeper := false, gatekeeperNavigated := true }
        else s2
      let cbHit := detectCallbackRequest fullText && !s3.callbackRequested
      let s4 :=
        if cbHit then
          { s3 with
            callbackRequested := true,
            callbackTime :=
              match reFind callbackTimeRe fullText with
              | some t => some t
              | none => s3.callbackTime }
        else s3
      let s5 := updateSentimentSession s4 fullText
      let evts0 := [UiEvent.userSpeech fullText]
        ++ (if gkHit then [UiEvent.gatekeeperDetected] else [])
        ++ (if navHit then [UiEvent.gatekeeperNavigated] else [])
        ++ (if cbHit then [UiEvent.callbackRequested] else [])
        ++ [UiEvent.sentimentUpdate s5.sentimentScore s5.sentimentLabel]
      if s5.nonEnglishDetected then
        { state := s5, events := evts0, llmCalls := 0, hangupDelayMs := none,
          closingTimerScheduled := false, audioSent := false }
      else
        let s6 := { s5 with isProcessingResponse := true }
        match o.llmResponse with
        | none =>
            { state := { s6 with isProcessingResponse := false },
              events := evts0 ++ [.statusThinking, .statusListening],
              llmCalls := 1, hangupDelayMs := none,
              closingTimerScheduled := false, audioSent := false }
        | some resp =>
            let s7 := addMessage s6 .assistant resp o.now
            let booked := detectMeetingBooked resp fullText
            let s8 := if booked then { s7 with meetingBooked := true } else s7
            { state := { s8 with isProcessingResponse := false },
              events := evts0 ++ [.statusThinking, .michaelSpeech resp,
                .statusSpeaking]
                ++ (if booked then [UiEvent.meetingBooked] else [])
                ++ [.statusListening],
              llmCalls := 1,
              hangupDelayMs := none,
              closingTimerScheduled := booked,
              audioSent := o.ttsAudio.isSome && o.mediaReady }

/-! ## Generation interleaving (claim about in-flight LLM generations)

An abstraction of the asynchronous structure of `processUserTurn`
(server lines 576-751): a dispatched turn that passes the guards sets the
`isProcessingResponse` flag and starts a generation synchronously (lines
578, 663, 671); when the turn finishes, the `finally` clears the flag (line
748) and, when the meeting-booked branch fired, a graceful-close timer has
been scheduled (line 706); when that timer fires it starts a second
`generateResponse` (line 709) without consulting or setting the in-flight
flag; that closing generation eventually resolves.  The event grain is the
await points of the source, so arbitrary interleavings of turns and the
closing timer are covered. -/

/-- State of the generation-counting machine: the in-flight flag, the number
of running generations started by `processUserTurn`, the number of running
closing generations, and the number of scheduled but unfired graceful-close
timers. -/
structure GenSt where
  isProcessingResponse : Bool
  mainGen : Nat
  closingGen : Nat
  closingTimers : Nat
deriving DecidableEq, Repr

/-- Events of the generation machine.  `dispatchTurn ok` is a user turn
delivered to `processUserTurn`; `ok` says whether the non-flag guards
(cooldown, voicemail, opt-out, non-English) let it reach the generation
call.  `mainTurnDone booked` is the completion of a running turn,
`booked` being the value of `detectMeetingBooked` for it. -/
inductive GenEv where
  | dispatchTurn (ok : Bool) : GenEv
  | mainTurnDone (booked : Bool) : GenEv
  | closingTimerFire : GenEv
  | closingGenDone : GenEv

/-- One step of the generation machine. -/
def genStep (s : GenSt) (e : GenEv) : GenSt :=
  match e with
  | .dispatchTurn ok =>
      if s.isProcessingResponse then s
      else if ok then
        { s with isProcessingResponse := true, mainGen := s.mainGen + 1 }
      else s
  | .mainTurnDone booked =>
      if s.mainGen = 0 then s
      else
        { s with
          mainGen := s.mainGen - 1,
          isProcessingResponse := false,
          closingTimers := if booked then s.closingTimers + 1 else s.closingTimers }
  | .closingTimerFire =>
      if s.closingTimers = 0 then s
      else
        { s with
          closingTimers := s.closingTimers - 1,
          closingGen := s.closingGen + 1 }
  | .closingGenDone =>
      if s.closingGen = 0 then s else { s with closingGen := s.closingGen - 1 }

/-- The machine at media-stream start: no flag, nothing in flight. -/
def genInit : GenSt :=
  { isProcessingResponse := false, mainGen := 0, closingGen := 0,
    closingTimers := 0 }

/-- A run of the generation machine. -/
def genRun (evs : List GenEv) : GenSt := evs.foldl genStep genInit

/-- Total LLM generations in flight. -/
def GenSt.inFlight (s : GenSt) : Nat := s.mainGen + s.closingGen

/-! ## Opening-cooldown timeline (server lines 487-494 and 873-917)

`handleMediaStream` sets `openingCooldown` when the media stream connects
(line 487) and schedules the 15-second safety timer (lines 489-494), which
clears the flag only if it is still set.  `sendOpeningLine` either reaches
line 909 and schedules the duration-estimate timer, which clears the flag
unconditionally, or throws and clears the flag in its catch (line 915).
The timeline below replays those clearing events in time order and counts
true-to-false transitions. -/

/-- How the opening attempt ended: the flow threw at some time, or the
estimate timer was scheduled at some time for an optional audio buffer
length. -/
inductive OpeningOutcome where
  | failed (tErr : Nat) : OpeningOutcome
  | sent (tSent : Nat) (audioLen : Option Nat) : OpeningOutcome

/-- Ceiling division. -/
def ceilDiv (a b : Nat) : Nat := (a + b - 1) / b

/-- The estimate delay of `sendOpeningLine` (line 907):
`Math.ceil((audioBuffer.length / 8000) * 1000) + 1500`, or 6000 without
audio. -/
def estDelayMs (audioLen : Option Nat) : Nat :=
  match audioLen with
  | some n => ceilDiv (n * 1000) 8000 + 1500
  | none => 6000

/-- The clearing events of one session. -/
inductive ClearEv where
  | safety : ClearEv
  | estimate : ClearEv
  | errorClear : ClearEv
deriving DecidableEq, Repr

/-- The safety-timer delay (line 494). -/
def safetyDelayMs : Nat := 15000

/-- The time-ordered clearing events of a session whose media stream
connected at `tStart`.  Node fires timers with equal deadlines in
registration order, and the safety timer is registered first. -/
def clearEventsOf (tStart : Nat) (oc : OpeningOutcome) : List (Nat × ClearEv) :=
  let tSafety := tStart + safetyDelayMs
  match oc with
  | .failed tErr =>
      if tErr ≤ tSafety then [(tErr, .errorClear), (tSafety, .safety)]
      else [(tSafety, .safety), (tErr, .errorClear)]
  | .sent tSent audioLen =>
      let tEst := tSent + estDelayMs audioLen
      if tSafety ≤ tEst then [(tSafety, .safety), (tEst, .estimate)]
      else [(tEst, .estimate), (tSafety, .safety)]

/-- State of the cooldown replay: the flag, the number of true-to-false
transitions so far, and the event and time of the first transition. -/
structure CooldownSt where
  cooldown : Bool
  transitions : Nat
  clearedBy : Option ClearEv
  clearedAt : Option Nat
deriving DecidableEq, Repr

/-- One clearing event: the safety timer clears only when the flag is still
set (line 490); the estimate timer and the error handler assign false
unconditionally (lines 910, 915).  A transition is counted only when the
flag was true. -/
def cooldownStep (s : CooldownSt) (ev : Nat × ClearEv) : CooldownSt :=
  match ev.2 with
  | .safety =>
      if s.cooldown then
        { cooldown := false, transitions := s.transitions + 1,
          clearedBy := some .safety, clearedAt := some ev.1 }
      else s
  | .estimate =>
      if s.cooldown then
        { cooldown := false, transitions := s.transitions + 1,
          clearedBy := some .estimate, clearedAt := some ev.1 }
      else { s with cooldown := false }
  | .errorClear =>
      if s.cooldown then
        { cooldown := false, transitions := s.transitions + 1,
          clearedBy := some .errorClear, clearedAt := some ev.1 }
      else { s with cooldown := false }

/-- Replay of a session's cooldown: the flag is set at stream start
(line 487) and the clearing events run in time order. -/
def runCooldown (tStart : Nat) (oc : OpeningOutcome) : CooldownSt :=
  (clearEventsOf tStart oc).foldl cooldownStep
    { cooldown := true, transitions := 0, clearedBy := none, clearedAt := none }

/-! ## Barge-in machine (server lines 529-554, 765-778, 920-995)

State and events of the barge-in behaviour of one session: audio sends set
the `isSpeaking` flag (line 930) after the open-socket early return
(line 921); a media frame while speaking with the ASR connected (line 533),
or a non-empty interim transcript while speaking (line 766), increments the
barge-in counter and sends a clear-playback frame only when the media
socket is open and the stream id is set (lines 545-550, 773-775). -/

/-- Barge-in machine state: the speaking flag, the counter, the number of
clear-playback frames sent, whether the media socket is open, and whether
the stream id has been set by the start event. -/
structure BargeSt where
  isSpeaking : Bool
  bargeInCount : Nat
  clearFrames : Nat
  wsOpen : Bool
  sidSet : Bool
deriving DecidableEq, Repr

/-- Events of the barge-in machine.  `mediaFrame dg` is an inbound media
frame with `dg` the truthiness of the Deepgram connection; `interim t` is an
interim transcript; `speakStart` is `sendAudioToTwilio` beginning a send;
`speakEnd` is the send loop or its safety timer clearing the flag;
`startEvent` is the media-stream start event that records the stream id;
`wsClose` is the media socket closing. -/
inductive BargeEv where
  | startEvent : BargeEv
  | mediaFrame (dg : Bool) : BargeEv
  | interim (text : List Char) : BargeEv
  | speakStart : BargeEv
  | speakEnd : BargeEv
  | wsClose : BargeEv

/-- The shared barge-in block (lines 534-553 and 767-777): increment the
counter, clear the speaking flag, and send the clear-playback frame only
when the socket is open and the stream id is set. -/
def bargeInBlock (s : BargeSt) : BargeSt :=
  { s with
    bargeInCount := s.bargeInCount + 1,
    isSpeaking := false,
    clearFrames := if s.wsOpen && s.sidSet then s.clearFrames + 1 else s.clearFrames }

/-- One step of the barge-in machine. -/
def bargeStep (s : BargeSt) (e : BargeEv) : BargeSt :=
  match e with
  | .startEvent => { s with sidSet := true }
  | .mediaFrame dg => if s.isSpeaking && dg then bargeInBlock s else s
  | .interim t =>
      if s.isSpeaking && !(jsTrim t).isEmpty then bargeInBlock s else s
  | .speakStart => if s.wsOpen && s.sidSet then { s with isSpeaking := true } else s
  | .speakEnd => { s with isSpeaking := false }
  | .wsClose => { s with wsOpen := false }

/-- The machine when the media stream connects: socket open, no stream id
yet, not speaking. -/
def bargeInit : BargeSt :=
  { isSpeaking := false, bargeInCount := 0, clearFrames := 0, wsOpen := true,
    sidSet := false }

/-- A run of the barge-in machine. -/
def bargeRun (evs : List BargeEv) : BargeSt := evs.foldl bargeStep bargeInit

/-! ## Turn accumulation machine (server lines 783-835)

The accumulated-transcript buffer and single turn timer of
`handleMediaStream`: a non-blank final fragment is appended and the timer
is (re)armed with a delay chosen by the fragment's turn status (lines
800-822); the timer firing trims the buffer, empties it, clears the timer
and dispatches the text (lines 817-822); an utterance-end event dispatches
only when the buffer is non-blank and no response is being generated
(lines 826-835). -/

/-- Accumulation state: the buffer, the armed timer delay, and the log of
dispatched turns. -/
structure AccSt where
  buffer : List Char
  timer : Option Nat
  dispatches : List (List Char)
deriving DecidableEq, Repr

/-- Events of the accumulation machine.  A final fragment carries the turn
status from the ASR metadata (`none` models missing metadata); the
utterance-end event carries the value of `isProcessingResponse` at that
moment. -/
inductive AccEv where
  | finalFrag (text : List Char) (status : Option TurnStatus) : AccEv
  | timerFire : AccEv
  | uttEnd (processing : Bool) : AccEv

/-- The wait chosen per final fragment (lines 805-814): 1500 ms for
mid-thought, 300 ms for complete, 600 ms otherwise (`TURN_WAIT_MS`,
line 499), with missing metadata defaulting to ambiguous. -/
def waitMsOf (status : Option TurnStatus) : Nat :=
  match status with
  | some .midThought => 1500
  | some .complete => 300
  | some .ambiguous => 600
  | none => 600

/-- One step of the accumulation machine. -/
def accStep (s : AccSt) (e : AccEv) : AccSt :=
  match e with
  | .finalFrag text status =>
      if (jsTrim text).isEmpty then s
      else
        { s with
          buffer := s.buffer ++ (if s.buffer.isEmpty then [] else [' ']) ++ text,
          timer := some (waitMsOf status) }
  | .timerFire =>
      match s.timer with
      | none => s
      | some _ =>
          { buffer := [], timer := none,
            dispatches := s.dispatches ++ [jsTrim s.buffer] }
  | .uttEnd processing =>
      if !(jsTrim s.buffer).isEmpty && !processing then
        { buffer := [], timer := none,
          dispatches := s.dispatches ++ [jsTrim s.buffer] }
      else s

/-- The machine at stream start: empty buffer, no timer. -/
def accInit : AccSt := { buffer := [], timer := none, dispatches := [] }

/-- A run of the accumulation machine. -/
def accRun (evs : List AccEv) : AccSt := evs.foldl accStep accInit

/-! ## Specification-side definitions used for comparison -/

/-- The opt-out variants as the specification enumerates them, for
comparison with the detector of the source: utterances containing
"stop calling", "take me off", "don't call", "remove me", "do not call" or
"no more calls", or ending in a standalone "stop".  This definition follows
the specification's wording, not the source. -/
def claimOptOutVariants : List (List Char) :=
  [ "stop calling".data, "take me off".data, ("don" ++ aposS ++ "t call").data,
    "remove me".data, "do not call".data, "no more calls".data ]

/-- An utterance contains one of the specification's listed opt-out
variants (case-insensitively, as the detector's patterns are
case-insensitive). -/
def claimContainsOptOutVariant (text : List Char) : Bool :=
  claimOptOutVariants.any (fun v => strIncludes (lcList text) v) ||
    reTest (rcat [rb, rstr "stop", rsp0, rend]) text

/-- A concrete session state used to instantiate theorems: fresh session
for the prospect John, as built by the session constructor. -/
def baseSession : SessionSt :=
  { firstName := "John".data, messages := [], transcript := [],
    michaelWordCount := 0, prospectWordCount := 0, objectionCount := 0,
    budgetQ := false, authorityQ := false, needQ := false, timelineQ := false,
    qualificationDepth := 0, isProcessingResponse := false,
    openingCooldown := false, isVoicemail := false, nonEnglishDetected := false,
    isGatekeeper := false, gatekeeperNavigated := false,
    callbackRequested := false, callbackTime := none, sentimentScore := 0,
    sentimentLabel := .neutral, sentimentHistory := [], meetingBooked := false }

/-- A concrete oracle: the LLM answers, TTS succeeds, the media channel is
ready. -/
def baseOracle : TurnOracle :=
  { llmResponse := some "Quick question for you.".data, ttsAudio := some 1,
    mediaReady := true, now := 0 }

/-- The invariant of the generation machine: the number of in-flight
generations started by `processUserTurn` is bounded by the in-flight flag. -/
def GenInv (s : GenSt) : Prop :=
  s.mainGen ≤ (if s.isProcessingResponse then 1 else 0)

/-! # Theorems -/

/-- C2: for every (assistant text, user text) pair the meeting-booked
detector returns true exactly when all four gates pass at once — a specific
time anchor and a specific day anchor in the combined text, a
prospect-confirmation phrase in the user text, and a scheduling-language
phrase in the assistant text — so whenever the day anchor, the time anchor
or any other gate is missing it returns false; illustrated on concrete
pairs missing the day, the time, the scheduling phrase or the
confirmation. -/
theorem detectMeetingBooked_requires_all_gates :
    (∀ m u, detectMeetingBooked m u = true ↔
      (hasSpecificTime (combinedText m u) = true ∧
       hasSpecificDay (combinedText m u) = true ∧
       prospectConfirmed (lcList u) = true ∧
       michaelProposed (lcList m) = true)) ∧
    detectMeetingBooked "how about tuesday at 2 pm".data "yes that works".data = true ∧
    detectMeetingBooked "how about at 2 pm".data "yes that works".data = false ∧
    detectMeetingBooked "how about tuesday".data "yes that works".data = false ∧
    detectMeetingBooked "see you tuesday at 2 pm".data "yes that works".data = false ∧
    detectMeetingBooked "how about tuesday at 2 pm".data "no way".data = false := by
  refine ⟨fun m u => ?_, by decide, by decide, by decide, by decide, by decide⟩
  unfold detectMeetingBooked
  cases hT : hasSpecificTime (combinedText m u) <;>
    cases hD : hasSpecificDay (combinedText m u) <;>
      cases hC : prospectConfirmed (lcList u) <;>
        cases hP : michaelProposed (lcList m) <;>
          simp [hT, hD, hC, hP]

/-- C7 counterexample: the one-word fragment "but" is classified
mid-thought, not complete, although it has at most three words, because the
mid-thought patterns are checked before the three-word rule. -/
theorem analyzeTurnCompletion_threeWord_counterexample :
    jsWordCount (jsTrim "but".data) ≤ 3 ∧
    jsTrim "but".data ≠ [] ∧
    analyzeTurnCompletion "but".data = TurnStatus.midThought ∧
    analyzeTurnCompletion "but".data ≠ TurnStatus.complete := by decide

/-- C7 (amended): on non-blank final fragments the heuristic returns
complete exactly when an end-of-turn pattern matches (sentence punctuation
or a short affirmative/closer) or no mid-thought pattern matches and the
fragment has at most three words; mid-thought exactly when no end-of-turn
pattern matches but a mid-thought pattern (conjunction, comma, hedge,
cliffhanger) does; ambiguous otherwise — so a fragment of at most three
words is complete only when no mid-thought pattern matches it. -/
theorem analyzeTurnCompletion_spec (text : List Char) (h : jsTrim text ≠ []) :
    (analyzeTurnCompletion text = TurnStatus.complete ↔
      (endOfTurnPatterns.any (fun p => reTest p (jsTrim text)) = true ∨
        (midThoughtPatterns.any (fun p => reTest p (jsTrim text)) = false ∧
          jsWordCount (jsTrim text) ≤ 3))) ∧
    (analyzeTurnCompletion text = TurnStatus.midThought ↔
      (endOfTurnPatterns.any (fun p => reTest p (jsTrim text)) = false ∧
        midThoughtPatterns.any (fun p => reTest p (jsTrim text)) = true)) ∧
    (analyzeTurnCompletion text = TurnStatus.ambiguous ↔
      (endOfTurnPatterns.any (fun p => reTest p (jsTrim text)) = false ∧
        midThoughtPatterns.any (fun p => reTest p (jsTrim text)) = false ∧
        3 < jsWordCount (jsTrim text))) := by
  unfold analyzeTurnCompletion
  rw [if_neg h]
  cases hE : endOfTurnPatterns.any (fun p => reTest p (jsTrim text)) <;>
    cases hM : midThoughtPatterns.any (fun p => reTest p (jsTrim text)) <;>
      by_cases hW : jsWordCount (jsTrim text) ≤ 3 <;>
        simp [hE, hM, hW] <;> omega

/-- Witness for the amended C7 theorem at the fragment "sounds good". -/
theorem analyzeTurnCompletion_spec_witness :
    jsTrim "sounds good".data ≠ [] ∧
    (analyzeTurnCompletion "sounds good".data = TurnStatus.complete ↔
      (endOfTurnPatterns.any (fun p => reTest p (jsTrim "sounds good".data)) = true ∨
        (midThoughtPatterns.any (fun p => reTest p (jsTrim "sounds good".data)) = false ∧
          jsWordCount (jsTrim "sounds good".data) ≤ 3))) :=
  ⟨by decide, (analyzeTurnCompletion_spec "sounds good".data (by decide)).1⟩

/-- C10: a user turn dispatched while a response generation is in flight is
silently discarded — `processUserTurn` returns with the session state
unchanged (nothing appended to history or transcript, no detector or
counter effects), broadcasts no observer events, starts no generation and
schedules nothing — and the turn-timer dispatch has already emptied the
accumulated-transcript buffer, so the dispatched words are lost. -/
theorem processUserTurn_inflight_discard (s : SessionSt) (fullText : List Char)
    (o : TurnOracle) (a : AccSt) (h : s.isProcessingResponse = true)
    (ha : a.timer.isSome = true) :
    processUserTurn s fullText o = noTurn s ∧
    accStep a AccEv.timerFire =
      { buffer := [], timer := none,
        dispatches := a.dispatches ++ [jsTrim a.buffer] } := by
  constructor
  · unfold processUserTurn
    by_cases hb : jsTrim fullText = [] <;> simp [hb, h, noTurn]
  · obtain ⟨d, hd⟩ := Option.isSome_iff_exists.mp ha
    unfold accStep
    rw [hd]

/-- Witness for the C10 theorem: an in-flight session discards the turn and
the fired timer empties the buffer. -/
theorem processUserTurn_inflight_discard_witness :
    ({ baseSession with isProcessingResponse := true } : SessionSt).isProcessingResponse = true ∧
    (({ buffer := "lost words".data, timer := some 600, dispatches := [] } : AccSt) |>.timer.isSome) = true ∧
    (processUserTurn { baseSession with isProcessingResponse := true } "hello".data baseOracle =
      noTurn { baseSession with isProcessingResponse := true } ∧
    accStep { buffer := "lost words".data, timer := some 600, dispatches := [] } AccEv.timerFire =
      { buffer := [], timer := none, dispatches := [jsTrim "lost words".data] }) :=
  ⟨rfl, rfl,
    processUserTurn_inflight_discard { baseSession with isProcessingResponse := true }
      "hello".data baseOracle { buffer := "lost words".data, timer := some 600, dispatches := [] }
      rfl rfl⟩

/-- C1 counterexample: after a booked turn completes and the graceful-close
timer fires, a closing generation is running with the in-flight flag clear,
so a newly dispatched user turn starts a second generation — two LLM
generations in flight for one session. -/
theorem genMachine_two_generations_counterexample :
    (genRun [GenEv.dispatchTurn true, GenEv.mainTurnDone true,
      GenEv.closingTimerFire]).inFlight = 1 ∧
    (genRun [GenEv.dispatchTurn true, GenEv.mainTurnDone true,
      GenEv.closingTimerFire]).isProcessingResponse = false ∧
    (genRun [GenEv.dispatchTurn true, GenEv.mainTurnDone true,
      GenEv.closingTimerFire, GenEv.dispatchTurn true]).inFlight = 2 := by
  refine ⟨rfl, rfl, rfl⟩

/-- C1 (amended): the in-flight flag guarantees that at most one generation
started by `processUserTurn` is running at any time — in every run of the
generation machine the main-generation count stays at most one, and a turn
dispatched while the flag is set changes nothing — but the meeting-booked
closing generation runs outside the flag, so it can overlap another
generation (see the counterexample). -/
theorem genMachine_flag_guards_main_generations :
    (∀ evs, (genRun evs).mainGen ≤ 1) ∧
    (∀ s : GenSt, s.isProcessingResponse = true →
      ∀ ok, genStep s (GenEv.dispatchTurn ok) = s) := by
  constructor
  · have hstep : ∀ s e, GenInv s → GenInv (genStep s e) := by
      intro s e hs
      unfold GenInv at *
      cases e with
      | dispatchTurn ok =>
          by_cases h : s.isProcessingResponse <;> by_cases h2 : ok <;>
            simp_all [genStep]
      | mainTurnDone booked =>
          by_cases h : s.mainGen = 0 <;>
            simp_all [genStep] <;> split at hs <;> omega
      | closingTimerFire =>
          by_cases h : s.closingTimers = 0 <;> simp_all [genStep]
      | closingGenDone =>
          by_cases h : s.closingGen = 0 <;> simp_all [genStep]
    have hrun : ∀ (evs : List GenEv) (s : GenSt), GenInv s →
        GenInv (evs.foldl genStep s) := by
      intro evs
      induction evs with
      | nil => intro s hs; simpa using hs
      | cons e rest ih => intro s hs; exact ih _ (hstep s e hs)
    intro evs
    have hI : GenInv (genRun evs) := hrun evs genInit (by simp [GenInv, genInit])
    unfold GenInv at hI
    split at hI <;> omega
  · intro s h ok
    simp [genStep, h]

/-- Witness for the amended C1 theorem: the empty run, and a dispatch
against a session whose flag is set. -/
theorem genMachine_flag_guards_main_generations_witness :
    (genRun []).mainGen ≤ 1 ∧
    (⟨true, 1, 0, 0⟩ : GenSt).isProcessingResponse = true ∧
    genStep (⟨true, 1, 0, 0⟩ : GenSt) (GenEv.dispatchTurn true) =
      (⟨true, 1, 0, 0⟩ : GenSt) :=
  ⟨genMachine_flag_guards_main_generations.1 [], rfl,
    genMachine_flag_guards_main_generations.2 _ rfl true⟩

/-- C5 counterexample: if the media socket closes while the assistant is
speaking, a non-empty interim transcript still increments the barge-in
counter but no clear-playback frame is sent, because the frame send is
guarded by the open-socket check. -/
theorem bargeIn_missing_clearFrame_counterexample :
    (bargeRun [BargeEv.startEvent, BargeEv.speakStart, BargeEv.wsClose,
      BargeEv.interim "hi".data]).bargeInCount = 1 ∧
    (bargeRun [BargeEv.startEvent, BargeEv.speakStart, BargeEv.wsClose,
      BargeEv.interim "hi".data]).clearFrames = 0 :=
  ⟨rfl, rfl⟩

/-- C5 (amended): the barge-in counter never decreases — neither across a
single event nor across any extension of a run — and every increment
(media-frame or interim triggered) sends a clear-playback frame on the
session's media channel whenever the channel is open and the stream id is
set; when the channel has already closed, the counter still increments but
no frame is sent (see the counterexample). -/
theorem bargeIn_monotone_and_clears :
    (∀ (evs more : List BargeEv),
      (bargeRun evs).bargeInCount ≤ (bargeRun (evs ++ more)).bargeInCount) ∧
    (∀ (s : BargeSt) (e : BargeEv),
      s.bargeInCount ≤ (bargeStep s e).bargeInCount) ∧
    (∀ (s : BargeSt) (e : BargeEv), s.wsOpen = true → s.sidSet = true →
      (bargeStep s e).bargeInCount = s.bargeInCount + 1 →
      (bargeStep s e).clearFrames = s.clearFrames + 1) := by
  have hstep : ∀ (s : BargeSt) (e : BargeEv),
      s.bargeInCount ≤ (bargeStep s e).bargeInCount := by
    intro s e
    cases e <;> simp only [bargeStep, bargeInBlock] <;> (try split) <;> simp
  refine ⟨?_, hstep, ?_⟩
  · intro evs more
    rw [bargeRun, bargeRun, List.foldl_append]
    generalize evs.foldl bargeStep bargeInit = s
    induction more generalizing s with
    | nil => simp
    | cons e rest ih =>
        calc s.bargeInCount ≤ (bargeStep s e).bargeInCount := hstep s e
          _ ≤ _ := ih (bargeStep s e)
  · intro s e hws hsid hinc
    cases e <;>
      simp only [bargeStep, bargeInBlock, hws, hsid, Bool.and_self,
        if_true] at hinc ⊢ <;>
      first
        | omega
        | (split at hinc <;> simp_all <;> omega)

/-- Witness for the amended C5 theorem: an increment while the channel is
open and the stream id is set sends exactly one clear frame. -/
theorem bargeIn_monotone_and_clears_witness :
    (bargeRun []).bargeInCount ≤ (bargeRun ([] ++ [BargeEv.startEvent])).bargeInCount ∧
    (⟨true, 0, 0, true, true⟩ : BargeSt).wsOpen = true ∧
    (⟨true, 0, 0, true, true⟩ : BargeSt).sidSet = true ∧
    (bargeStep (⟨true, 0, 0, true, true⟩ : BargeSt)
      (BargeEv.interim "hi".data)).bargeInCount =
      (⟨true, 0, 0, true, true⟩ : BargeSt).bargeInCount + 1 ∧
    (bargeStep (⟨true, 0, 0, true, true⟩ : BargeSt)
      (BargeEv.interim "hi".data)).clearFrames =
      (⟨true, 0, 0, true, true⟩ : BargeSt).clearFrames + 1 :=
  ⟨bargeIn_monotone_and_clears.1 [] [BargeEv.startEvent], rfl, rfl, by decide,
    bargeIn_monotone_and_clears.2.2 _ (BargeEv.interim "hi".data) rfl rfl (by decide)⟩

/-- C6 counterexample: an utterance-end event that arrives while a response
generation is in flight does not dispatch the non-empty accumulated turn —
the buffer stays full and nothing is dispatched — contrary to the claim
that utterance-end always dispatches the accumulated text. -/
theorem uttEnd_inflight_no_dispatch_counterexample :
    (accRun [AccEv.finalFrag "hello there".data (some TurnStatus.ambiguous),
      AccEv.uttEnd true]).dispatches = [] ∧
    jsTrim (accRun [AccEv.finalFrag "hello there".data (some TurnStatus.ambiguous),
      AccEv.uttEnd true]).buffer ≠ [] := by
  refine ⟨rfl, by decide⟩

/-- C6 (amended): every non-blank final fragment is appended to the
accumulated turn buffer (space-separated) and (re)arms the single turn
timer with 300 ms for complete, 600 ms for ambiguous or missing status and
1500 ms for mid-thought; on timer expiry, and on an utterance-end event
arriving while no response generation is in flight, the whole accumulated
text is dispatched as exactly one user turn, with the buffer emptied and
the timer cancelled; an utterance-end during generation dispatches nothing
(see the counterexample). -/
theorem turnAccumulation_spec :
    (∀ (s : AccSt) (text : List Char) (status : Option TurnStatus),
      jsTrim text ≠ [] →
      accStep s (AccEv.finalFrag text status) =
        { s with
          buffer := s.buffer ++ (if s.buffer.isEmpty then [] else [' ']) ++ text,
          timer := some (waitMsOf status) }) ∧
    (waitMsOf (some TurnStatus.complete) = 300 ∧
      waitMsOf (some TurnStatus.ambiguous) = 600 ∧
      waitMsOf (some TurnStatus.midThought) = 1500 ∧ waitMsOf none = 600) ∧
    (∀ s : AccSt, s.timer.isSome = true →
      accStep s AccEv.timerFire =
        { buffer := [], timer := none,
          dispatches := s.dispatches ++ [jsTrim s.buffer] }) ∧
    (∀ s : AccSt, jsTrim s.buffer ≠ [] →
      accStep s (AccEv.uttEnd false) =
        { buffer := [], timer := none,
          dispatches := s.dispatches ++ [jsTrim s.buffer] }) := by
  refine ⟨?_, ⟨rfl, rfl, rfl, rfl⟩, ?_, ?_⟩
  · intro s text status h
    simp [accStep, List.isEmpty_iff, h]
  · intro s h
    obtain ⟨d, hd⟩ := Option.isSome_iff_exists.mp h
    unfold accStep
    rw [hd]
  · intro s h
    simp [accStep, List.isEmpty_iff, h]

/-- Witness for the amended C6 theorem at concrete buffers. -/
theorem turnAccumulation_spec_witness :
    jsTrim "the price is steep".data ≠ [] ∧
    accStep { buffer := "interested but".data, timer := some 1500, dispatches := [] }
        (AccEv.finalFrag "the price is steep".data (some TurnStatus.complete)) =
      { buffer := "interested but".data ++ [' '] ++ "the price is steep".data,
        timer := some 300, dispatches := [] } ∧
    accStep { buffer := "hello there".data, timer := some 600, dispatches := [] }
        AccEv.timerFire =
      { buffer := [], timer := none, dispatches := [jsTrim "hello there".data] } := by
  refine ⟨by decide, ?_, ?_⟩
  · have h := turnAccumulation_spec.1
      { buffer := "interested but".data, timer := some 1500, dispatches := [] }
      "the price is steep".data (some TurnStatus.complete) (by decide)
    rw [h]
    decide
  · exact turnAccumulation_spec.2.2.1
      { buffer := "hello there".data, timer := some 600, dispatches := [] } rfl

/-- C8 counterexample: the detector fires on "cancel", which contains none
of the claim's listed variants, and does not fire on "don't call us",
which contains the listed variant "don't call" (the source pattern demands
"me" or "again" after it) — so the detector is not exactly the listed
variants. -/
theorem detectOptOut_list_counterexample :
    detectOptOut "cancel".data = true ∧
    claimContainsOptOutVariant "cancel".data = false ∧
    detectOptOut ("don" ++ aposS ++ "t call us").data = false ∧
    claimContainsOptOutVariant ("don" ++ aposS ++ "t call us").data = true := by
  refine ⟨by decide, by decide, by decide, by decide⟩

/-- C8 (amended): the opt-out detector returns true exactly when one of the
eight source patterns matches the utterance — the claim's variants together
with quit/cancel/unsubscribe and stop-contacting/this/it, the don't-call
variant requiring "me" or "again", the remove variant accepting "me" or
"my number" — and on every dispatched user turn on which it fires the
orchestrator short-circuits: it appends the fixed compliant acknowledgement
as the assistant message, plays it whenever TTS and the media channel
allow, schedules hangup 4 s later, and starts no LLM generation for that
turn. -/
theorem optOut_shortCircuit_spec :
    (∀ t, detectOptOut t = true ↔ ∃ p ∈ optOutPatterns, reTest p t = true) ∧
    (∀ (s : SessionSt) (fullText : List Char) (o : TurnOracle),
      jsTrim fullText ≠ [] →
      s.isProcessingResponse = false → s.openingCooldown = false →
      s.isVoicemail = false → detectOptOut fullText = true →
      (processUserTurn s fullText o).llmCalls = 0 ∧
      (processUserTurn s fullText o).hangupDelayMs = some 4000 ∧
      (processUserTurn s fullText o).state.messages =
        s.messages ++ [(Role.user, fullText), (Role.assistant, optOutResponse)] ∧
      (processUserTurn s fullText o).events =
        [UiEvent.userSpeech fullText, UiEvent.optOutDetected,
          UiEvent.michaelSpeech optOutResponse, UiEvent.statusSpeaking] ∧
      (processUserTurn s fullText o).audioSent =
        (o.ttsAudio.isSome && o.mediaReady) ∧
      (processUserTurn s fullText o).closingTimerScheduled = false) := by
  constructor
  · intro t
    simp [detectOptOut, List.any_eq_true]
  · intro s fullText o hblank hflag hcool hvm hopt
    unfold processUserTurn
    simp only [hblank, hflag, hcool, hvm, hopt, if_neg, if_pos, if_false,
      Bool.false_eq_true, ite_false]
    simp [addMessage, hopt, List.append_assoc]

/-- Witness for the amended C8 theorem on the turn
"please take me off your list". -/
theorem optOut_shortCircuit_spec_witness :
    jsTrim "please take me off your list".data ≠ [] ∧
    baseSession.isProcessingResponse = false ∧
    baseSession.openingCooldown = false ∧
    baseSession.isVoicemail = false ∧
    detectOptOut "please take me off your list".data = true ∧
    (processUserTurn baseSession "please take me off your list".data baseOracle).llmCalls = 0 ∧
    (processUserTurn baseSession "please take me off your list".data baseOracle).hangupDelayMs =
      some 4000 :=
  ⟨by decide, rfl, rfl, rfl, by decide,
    (optOut_shortCircuit_spec.2 baseSession "please take me off your list".data baseOracle
      (by decide) rfl rfl rfl (by decide)).1,
    (optOut_shortCircuit_spec.2 baseSession "please take me off your list".data baseOracle
      (by decide) rfl rfl rfl (by decide)).2.1⟩

/-- C4: for every session the opening-cooldown flag, set at media-stream
start, undergoes exactly one true-to-false transition and ends cleared, in
every outcome of the opening flow (estimate timer scheduled with or without
audio, or the flow failing); when the opening flow completes, the clearing
happens at the earlier of the duration-estimate time — sent time plus
ceil(bytes/8000 s) plus 1.5 s, or 6 s without audio — and the 15-second
safety timeout, cleared by whichever fires first. -/
theorem openingCooldown_cleared_once :
    (∀ tStart oc, (runCooldown tStart oc).transitions = 1 ∧
      (runCooldown tStart oc).cooldown = false) ∧
    (∀ tStart tSent audioLen,
      (runCooldown tStart (OpeningOutcome.sent tSent audioLen)).clearedAt =
        some (min (tSent + estDelayMs audioLen) (tStart + safetyDelayMs)) ∧
      (runCooldown tStart (OpeningOutcome.sent tSent audioLen)).clearedBy =
        some (if tStart + safetyDelayMs ≤ tSent + estDelayMs audioLen
          then ClearEv.safety else ClearEv.estimate)) ∧
    estDelayMs (some 48000) = 7500 ∧ estDelayMs none = 6000 := by
  refine ⟨?_, ?_, rfl, rfl⟩
  · intro tStart oc
    cases oc <;>
      · simp only [runCooldown, clearEventsOf]
        split <;> simp [cooldownStep]
  · intro tStart tSent audioLen
    simp only [runCooldown, clearEventsOf]
    split
    · rename_i hle
      simp only [cooldownStep, List.foldl]
      constructor
      · simp [Nat.min_eq_right hle]
      · simp [if_pos hle]
    · rename_i hlt
      have hle2 : tSent + estDelayMs audioLen ≤ tStart + safetyDelayMs := by omega
      simp only [cooldownStep, List.foldl]
      constructor
      · simp [Nat.min_eq_left hle2]
      · simp [if_neg hlt]

/-- C3: for every utterance and prior score in the sentiment range, the
update computes the pattern-weighted delta with its two word-count
adjustments (−0.5 for at most two words with zero pattern delta, +1 for
more than twenty words with non-negative delta), sets the new score to
`clamp(s·0.85 + delta, −10, +10)`, keeps the score inside `[−10, +10]`,
and derives the label from the score alone by the fixed thresholds. -/
theorem sentimentUpdate_spec (s : ℚ) (text : List Char)
    (h1 : -10 ≤ s) (h2 : s ≤ 10) :
    updateSentimentScore s text =
      max (-10) (min 10 (s * (85/100) + analyzeUtterance text)) ∧
    -10 ≤ updateSentimentScore s text ∧
    updateSentimentScore s text ≤ 10 ∧
    updateSentiment s text =
      (updateSentimentScore s text,
        sentimentLabelOf (updateSentimentScore s text)) ∧
    (∀ q : ℚ,
      (q ≤ -6 → sentimentLabelOf q = SentLabel.hostile) ∧
      (-6 < q → q ≤ -2 → sentimentLabelOf q = SentLabel.negative) ∧
      (-2 < q → q ≤ 2 → sentimentLabelOf q = SentLabel.neutral) ∧
      (2 < q → q ≤ 6 → sentimentLabelOf q = SentLabel.positive) ∧
      (6 < q → sentimentLabelOf q = SentLabel.enthusiastic)) ∧
    (jsTrim text ≠ [] → jsWordCount text ≤ 2 → patternDelta text = 0 →
      analyzeUtterance text = patternDelta text - 1/2) ∧
    (jsTrim text ≠ [] → 20 < jsWordCount text → 0 ≤ patternDelta text →
      analyzeUtterance text = patternDelta text + 1) := by
  refine ⟨rfl, ?_, ?_, rfl, ?_, ?_, ?_⟩
  · exact le_max_left _ _
  · exact max_le (by norm_num) (min_le_left _ _)
  · intro q
    refine ⟨fun hq => ?_, fun hq1 hq2 => ?_, fun hq1 hq2 => ?_,
      fun hq1 hq2 => ?_, fun hq => ?_⟩ <;>
      unfold sentimentLabelOf
    · rw [if_pos hq]
    · rw [if_neg (by linarith), if_pos hq2]
    · rw [if_neg (by linarith), if_neg (by linarith), if_pos hq2]
    · rw [if_neg (by linarith), if_neg (by linarith), if_neg (by linarith),
        if_pos hq2]
    · rw [if_neg (by linarith), if_neg (by linarith), if_neg (by linarith),
        if_neg (by linarith)]
  · intro hne hwc hpd
    have hin : jsWordCount text ≤ 2 ∧ patternDelta text = 0 := ⟨hwc, hpd⟩
    unfold analyzeUtterance
    rw [if_neg hne]
    simp only [if_pos hin]
    rw [if_neg (fun hh => absurd hh.1 (by omega))]
  · intro hne hwc hpd
    have hin : ¬(jsWordCount text ≤ 2 ∧ patternDelta text = 0) :=
      fun hh => absurd hh.1 (by omega)
    unfold analyzeUtterance
    rw [if_neg hne]
    simp only [if_neg hin]
    rw [if_pos ⟨hwc, hpd⟩]

/-- Witness for the C3 theorem at prior score 0 and the curt utterance
"ok": the bounds hold and the −0.5 adjustment applies. -/
theorem sentimentUpdate_spec_witness :
    (-10 ≤ (0 : ℚ) ∧ (0 : ℚ) ≤ 10) ∧
    (-10 ≤ updateSentimentScore 0 "ok".data ∧
      updateSentimentScore 0 "ok".data ≤ 10) ∧
    (jsTrim "ok".data ≠ [] ∧ jsWordCount "ok".data ≤ 2 ∧
      patternDelta "ok".data = 0) ∧
    analyzeUtterance "ok".data = patternDelta "ok".data - 1/2 := by
  have hpd : patternDelta "ok".data = 0 := by
    simp +decide [patternDelta, positiveSignals, negativeSignals]
  have h := sentimentUpdate_spec 0 "ok".data (by norm_num) (by norm_num)
  exact ⟨⟨by norm_num, by norm_num⟩, ⟨h.2.1, h.2.2.1⟩,
    ⟨by decide, by decide, hpd⟩,
    h.2.2.2.2.2.1 (by decide) (by decide) hpd⟩

/-- A key that `Map.get` finds is among the cache keys. -/
theorem mapGet_mem_keys (m : TtsCache) (k : List Char) (e : CacheEntry)
    (h : mapGet m k = some e) : k ∈ m.map Prod.fst := by
  induction m with
  | nil => exact Option.noConfusion h
  | cons p rest ih =>
      obtain ⟨pk, pv⟩ := p
      rw [mapGet] at h
      by_cases hk : pk = k
      · exact List.mem_map.mpr ⟨(pk, pv), List.mem_cons_self _ _, hk⟩
      · rw [if_neg hk] at h
        rcases List.mem_map.mp (ih h) with ⟨q, hq, hqk⟩
        exact List.mem_map.mpr ⟨q, List.mem_cons_of_mem _ hq, hqk⟩

/-- Keys after `Map.set`: the old keys or the inserted one. -/
theorem mapSet_keys (m : TtsCache) (k0 k : List Char) (v : CacheEntry)
    (h : k ∈ (mapSet m k0 v).map Prod.fst) : k ∈ m.map Prod.fst ∨ k = k0 := by
  induction m with
  | nil =>
      rw [mapSet] at h
      rcases List.mem_map.mp h with ⟨q, hq, hqk⟩
      rw [List.mem_singleton] at hq
      subst hq
      exact Or.inr hqk.symm
  | cons p rest ih =>
      obtain ⟨pk, pv⟩ := p
      rw [mapSet] at h
      by_cases hk : pk = k0
      · rw [if_pos hk] at h
        rcases List.mem_map.mp h with ⟨q, hq, hqk⟩
        rcases List.mem_cons.mp hq with hq1 | hq2
        · subst hq1
          exact Or.inr hqk.symm
        · exact Or.inl (List.mem_map.mpr ⟨q, List.mem_cons_of_mem _ hq2, hqk⟩)
      · rw [if_neg hk] at h
        rcases List.mem_map.mp h with ⟨q, hq, hqk⟩
        rcases List.mem_cons.mp hq with hq1 | hq2
        · subst hq1
          exact Or.inl (List.mem_map.mpr ⟨(pk, pv), List.mem_cons_self _ _, hqk⟩)
        · rcases ih (List.mem_map.mpr ⟨q, hq2, hqk⟩) with hm | he
          · rcases List.mem_map.mp hm with ⟨q', hq', hqk'⟩
            exact Or.inl (List.mem_map.mpr ⟨q', List.mem_cons_of_mem _ hq', hqk'⟩)
          · exact Or.inr he

/-- Keys after `Map.delete` are among the old keys. -/
theorem mapDelete_keys (m : TtsCache) (k0 k : List Char)
    (h : k ∈ (mapDelete m k0).map Prod.fst) : k ∈ m.map Prod.fst := by
  induction m with
  | nil => exact absurd h (List.not_mem_nil k)
  | cons p rest ih =>
      obtain ⟨pk, pv⟩ := p
      rw [mapDelete] at h
      by_cases hk : pk = k0
      · rw [if_pos hk] at h
        rcases List.mem_map.mp h with ⟨q, hq, hqk⟩
        exact List.mem_map.mpr ⟨q, List.mem_cons_of_mem _ hq, hqk⟩
      · rw [if_neg hk] at h
        rcases List.mem_map.mp h with ⟨q, hq, hqk⟩
        rcases List.mem_cons.mp hq with hq1 | hq2
        · subst hq1
          exact List.mem_map.mpr ⟨(pk, pv), List.mem_cons_self _ _, hqk⟩
        · rcases List.mem_map.mp (ih (List.mem_map.mpr ⟨q, hq2, hqk⟩)) with ⟨q', hq', hqk'⟩
          exact List.mem_map.mpr ⟨q', List.mem_cons_of_mem _ hq', hqk'⟩

/-- `Map.set` grows the cache by at most one entry. -/
theorem mapSet_length_le (m : TtsCache) (k : List Char) (v : CacheEntry) :
    (mapSet m k v).length ≤ m.length + 1 := by
  induction m with
  | nil =>
      rw [mapSet]
      exact le_refl _
  | cons p rest ih =>
      obtain ⟨pk, pv⟩ := p
      rw [mapSet]
      by_cases hk : pk = k
      · rw [if_pos hk]
        simp
      · rw [if_neg hk]
        simpa using ih

/-- `Map.set` on a present key keeps the size. -/
theorem mapSet_length_of_get (m : TtsCache) (k : List Char) (v e : CacheEntry)
    (h : mapGet m k = some e) : (mapSet m k v).length = m.length := by
  induction m with
  | nil => exact Option.noConfusion h
  | cons p rest ih =>
      obtain ⟨pk, pv⟩ := p
      rw [mapGet] at h
      rw [mapSet]
      by_cases hk : pk = k
      · rw [if_pos hk]
        rfl
      · rw [if_neg hk] at h
        rw [if_neg hk]
        simp [ih h]

/-- `Map.delete` of a present key shrinks the cache by exactly one entry. -/
theorem mapDelete_length (m : TtsCache) (k : List Char)
    (h : k ∈ m.map Prod.fst) : (mapDelete m k).length + 1 = m.length := by
  induction m with
  | nil => exact absurd h (List.not_mem_nil k)
  | cons p rest ih =>
      obtain ⟨pk, pv⟩ := p
      rw [mapDelete]
      by_cases hk : pk = k
      · rw [if_pos hk]
        rfl
      · rw [if_neg hk]
        have hrest : k ∈ rest.map Prod.fst := by
          rcases List.mem_map.mp h with ⟨q, hq, hqk⟩
          rcases List.mem_cons.mp hq with hq1 | hq2
          · rw [hq1] at hqk
            exact absurd hqk hk
          · exact List.mem_map.mpr ⟨q, hq2, hqk⟩
        simp [← ih hrest]

/-- The eviction scan returns a pair whose time bounds every cache entry
and the accumulator, and which is either the accumulator or an entry of the
cache. -/
theorem oldestScan_spec (m : TtsCache) :
    ∀ (acc : Option (List Char × Nat)) (out : List Char × Nat),
      oldestScan m acc = some out →
      (∀ p ∈ m, out.2 ≤ p.2.createdAt) ∧
      (∀ b, acc = some b → out.2 ≤ b.2) ∧
      (acc = some out ∨ ∃ e, (out.1, e) ∈ m ∧ e.createdAt = out.2) := by
  induction m with
  | nil =>
      intro acc out h
      replace h : acc = some out := h
      refine ⟨by simp, fun b hb => ?_, Or.inl h⟩
      rw [h] at hb
      cases hb
      exact le_refl _
  | cons hd rest ih =>
      obtain ⟨hk, hv⟩ := hd
      intro acc out h
      cases acc with
      | none =>
          replace h : oldestScan rest (some (hk, hv.createdAt)) = some out := h
          obtain ⟨hmin, hacc, hmem⟩ := ih (some (hk, hv.createdAt)) out h
          have hle : out.2 ≤ hv.createdAt := hacc _ rfl
          refine ⟨?_, by simp, ?_⟩
          · intro p hp
            rcases List.mem_cons.mp hp with hp1 | hp2
            · rw [hp1]
              exact hle
            · exact hmin p hp2
          · rcases hmem with hout | ⟨e, he, het⟩
            · cases hout
              exact Or.inr ⟨hv, ⟨List.mem_cons_self _ _, rfl⟩⟩
            · exact Or.inr ⟨e, List.mem_cons_of_mem _ he, het⟩
      | some b =>
          replace h : oldestScan rest
              (if hv.createdAt < b.2 then some (hk, hv.createdAt) else some b) =
              some out := h
          by_cases hlt : hv.createdAt < b.2
          · rw [if_pos hlt] at h
            obtain ⟨hmin, hacc, hmem⟩ := ih (some (hk, hv.createdAt)) out h
            have hle : out.2 ≤ hv.createdAt := hacc _ rfl
            refine ⟨?_, fun b' hb' => ?_, ?_⟩
            · intro p hp
              rcases List.mem_cons.mp hp with hp1 | hp2
              · rw [hp1]
                exact hle
              · exact hmin p hp2
            · cases hb'
              exact le_trans hle (le_of_lt hlt)
            · rcases hmem with hout | ⟨e, he, het⟩
              · cases hout
                exact Or.inr ⟨hv, ⟨List.mem_cons_self _ _, rfl⟩⟩
              · exact Or.inr ⟨e, List.mem_cons_of_mem _ he, het⟩
          · rw [if_neg hlt] at h
            obtain ⟨hmin, hacc, hmem⟩ := ih (some b) out h
            have hle : out.2 ≤ b.2 := hacc _ rfl
            refine ⟨?_, fun b' hb' => ?_, ?_⟩
            · intro p hp
              rcases List.mem_cons.mp hp with hp1 | hp2
              · rw [hp1]
                exact le_trans hle (le_of_not_lt hlt)
              · exact hmin p hp2
            · cases hb'
              exact hle
            · rcases hmem with hout | ⟨e, he, het⟩
              · exact Or.inl hout
              · exact Or.inr ⟨e, List.mem_cons_of_mem _ he, het⟩

/-- The eviction scan of a run starting from a set accumulator returns
something. -/
theorem oldestScan_isSome (m : TtsCache) :
    ∀ acc : Option (List Char × Nat), acc.isSome = true →
      (oldestScan m acc).isSome = true := by
  induction m with
  | nil =>
      intro acc h
      exact h
  | cons hd rest ih =>
      obtain ⟨hk, hv⟩ := hd
      intro acc h
      cases acc with
      | none => exact Bool.noConfusion h
      | some b =>
          show (oldestScan rest
            (if hv.createdAt < b.2 then some (hk, hv.createdAt) else some b)).isSome = true
          by_cases hlt : hv.createdAt < b.2
          · rw [if_pos hlt]
            exact ih _ rfl
          · rw [if_neg hlt]
            exact ih _ rfl

/-- The evicted key of a non-empty cache exists, belongs to the cache, and
its entry has the smallest creation timestamp. -/
theorem oldestKey_spec (m : TtsCache) (h : m ≠ []) :
    ∃ k e, oldestKey m = some k ∧ (k, e) ∈ m ∧
      ∀ p ∈ m, e.createdAt ≤ p.2.createdAt := by
  cases m with
  | nil => exact absurd rfl h
  | cons hd rest =>
      obtain ⟨hk, hv⟩ := hd
      have hsome : (oldestScan ((hk, hv) :: rest) none).isSome = true :=
        oldestScan_isSome rest (some (hk, hv.createdAt)) rfl
      obtain ⟨out, hout⟩ := Option.isSome_iff_exists.mp hsome
      obtain ⟨hmin, _, hmem⟩ := oldestScan_spec ((hk, hv) :: rest) none out hout
      rcases hmem with hcon | ⟨e, he, het⟩
      · cases hcon
      · refine ⟨out.1, e, ?_, he, fun p hp => ?_⟩
        · unfold oldestKey
          rw [hout]
          rfl
        · rw [het]
          exact hmin p hp

/-- Inserting through `setCachedAudio` keeps the cache within capacity. -/
theorem setCachedAudio_le (m : TtsCache) (now : Nat) (text : List Char)
    (buf : Nat) (h : m.length ≤ cacheMaxSize) :
    (setCachedAudio m now text buf).length ≤ cacheMaxSize := by
  simp only [setCachedAudio]
  by_cases hc : cacheMaxSize ≤ m.length
  · have hm : m ≠ [] := by
      intro he
      rw [he] at hc
      simp [cacheMaxSize] at hc
    obtain ⟨k, e, hk, hmem, _⟩ := oldestKey_spec m hm
    rw [if_pos hc, hk]
    have hdel : (mapDelete m k).length + 1 = m.length :=
      mapDelete_length m k (List.mem_map.mpr ⟨(k, e), hmem, rfl⟩)
    calc (mapSet (mapDelete m k) (normalizeForCache text)
            { createdAt := now, buf := buf, hitCount := 0 }).length
        ≤ (mapDelete m k).length + 1 := mapSet_length_le _ _ _
      _ = m.length := hdel
      _ ≤ cacheMaxSize := h
  · rw [if_neg hc]
    calc (mapSet m (normalizeForCache text)
            { createdAt := now, buf := buf, hitCount := 0 }).length
        ≤ m.length + 1 := mapSet_length_le _ _ _
      _ ≤ cacheMaxSize := by omega

/-- A cache lookup never changes the number of entries. -/
theorem getCachedAudio_cache_length (m : TtsCache) (now : Nat)
    (text : List Char) : (getCachedAudio m now text).2.length = m.length := by
  simp only [getCachedAudio]
  split
  · rename_i e hg
    split
    · exact mapSet_length_of_get m _ _ e hg
    · rfl
  · rfl

/-- A cache lookup never adds a key. -/
theorem getCachedAudio_keys (m : TtsCache) (now : Nat) (text k : List Char)
    (h : k ∈ (getCachedAudio m now text).2.map Prod.fst) :
    k ∈ m.map Prod.fst := by
  simp only [getCachedAudio] at h
  split at h
  · rename_i e hg
    split at h
    · rcases mapSet_keys m _ k _ h with hm | he
      · exact hm
      · rw [he]
        exact mapGet_mem_keys m _ e hg
    · exact h
  · exact h

/-- One synthesize call keeps the cache within capacity. -/
theorem synthesizeStep_le (m : TtsCache) (now : Nat) (text : List Char)
    (tts : Option Nat) (h : m.length ≤ cacheMaxSize) :
    (synthesizeStep m now text tts).length ≤ cacheMaxSize := by
  by_cases hb : jsTrim text = []
  · simp only [synthesizeStep, if_pos hb]
    exact h
  · simp only [synthesizeStep, if_neg hb]
    split
    · rename_i b hg
      rw [getCachedAudio_cache_length]
      exact h
    · rename_i hg
      split
      · rename_i buf
        split
        · rename_i hlen
          exact setCachedAudio_le m now text buf h
        · exact h
      · exact h

/-- Every run of synthesize calls keeps the process-global cache within
capacity. -/
theorem runSynth_le (ops : List SynthOp) :
    (runSynth ops).length ≤ cacheMaxSize := by
  suffices h : ∀ m : TtsCache, m.length ≤ cacheMaxSize →
      (ops.foldl (fun m op => synthesizeStep m op.now op.text op.ttsResult) m).length ≤
        cacheMaxSize by
    exact h [] (by simp [cacheMaxSize])
  induction ops with
  | nil =>
      intro m hm
      simpa using hm
  | cons op rest ih =>
      intro m hm
      exact ih _ (synthesizeStep_le m op.now op.text op.ttsResult hm)

/-- A key new to the cache after a synthesize call comes from a raw text of
fewer than 100 characters whose synthesis succeeded, under that text's
normalization. -/
theorem synthesizeStep_new_key (m : TtsCache) (now : Nat) (text : List Char)
    (tts : Option Nat) (k : List Char)
    (hmem : k ∈ (synthesizeStep m now text tts).map Prod.fst)
    (hnot : ¬ k ∈ m.map Prod.fst) :
    text.length < 100 ∧ k = normalizeForCache text ∧ tts.isSome = true := by
  by_cases hb : jsTrim text = []
  · simp only [synthesizeStep, if_pos hb] at hmem
    exact absurd hmem hnot
  · simp only [synthesizeStep, if_neg hb] at hmem
    split at hmem
    · rename_i b hg
      exact absurd (getCachedAudio_keys m now text k hmem) hnot
    · rename_i hg
      split at hmem
      · rename_i buf
        split at hmem
        · rename_i hlen
          simp only [setCachedAudio] at hmem
          rcases mapSet_keys _ _ k _ hmem with hm | he
          · split at hm
            · split at hm
              · rename_i k0 ho
                exact absurd (mapDelete_keys m k0 k hm) hnot
              · exact absurd hm hnot
            · exact absurd hm hnot
          · exact ⟨hlen, he, rfl⟩
        · rename_i hlen
          exact absurd hmem hnot
      · exact absurd hmem hnot

/-- A lookup hit proves the entry is younger than the TTL. -/
theorem getCachedAudio_ttl (m : TtsCache) (now : Nat) (text : List Char)
    (b : Nat) (h : (getCachedAudio m now text).1 = some b) :
    ∃ e, mapGet m (normalizeForCache text) = some e ∧ e.buf = b ∧
      now - e.createdAt < cacheTtlMs := by
  simp only [getCachedAudio] at h
  split at h
  · rename_i e hg
    split at h
    · rename_i htl
      cases h
      exact ⟨e, hg, rfl, htl⟩
    · cases h
  · cases h

/-- The eviction performed by an insert at capacity removes the entry whose
creation timestamp is smallest. -/
theorem setCachedAudio_evicts_oldest (m : TtsCache) (now : Nat)
    (text : List Char) (buf : Nat) (hc : cacheMaxSize ≤ m.length) :
    ∃ k e, oldestKey m = some k ∧ (k, e) ∈ m ∧
      (∀ p ∈ m, e.createdAt ≤ p.2.createdAt) ∧
      setCachedAudio m now text buf =
        mapSet (mapDelete m k) (normalizeForCache text)
          { createdAt := now, buf := buf, hitCount := 0 } := by
  have hm : m ≠ [] := by
    intro he
    rw [he] at hc
    simp [cacheMaxSize] at hc
  obtain ⟨k, e, hk, hmem, hmin⟩ := oldestKey_spec m hm
  refine ⟨k, e, hk, hmem, hmin, ?_⟩
  simp only [setCachedAudio]
  rw [if_pos hc, hk]

/-- C9: across every sequence of synthesize calls the response cache never
holds more than 50 entries; a key new to the cache comes only from a raw
text of fewer than 100 characters (stored under that text's normalization,
and only when synthesis succeeded); an insert arriving at capacity first
evicts the entry with the smallest creation timestamp; and a lookup
returns a cached buffer only when the entry was created less than one hour
before the lookup. -/
theorem ttsCache_spec :
    (∀ ops : List SynthOp, (runSynth ops).length ≤ cacheMaxSize) ∧
    (∀ (m : TtsCache) (now : Nat) (text : List Char) (tts : Option Nat)
        (k : List Char),
      k ∈ (synthesizeStep m now text tts).map Prod.fst →
      ¬ k ∈ m.map Prod.fst →
      (text.length < 100 ∧ k = normalizeForCache text ∧ tts.isSome = true)) ∧
    (∀ (m : TtsCache) (now : Nat) (text : List Char) (buf : Nat),
      cacheMaxSize ≤ m.length →
      ∃ k e, oldestKey m = some k ∧ (k, e) ∈ m ∧
        (∀ p ∈ m, e.createdAt ≤ p.2.createdAt) ∧
        setCachedAudio m now text buf =
          mapSet (mapDelete m k) (normalizeForCache text)
            { createdAt := now, buf := buf, hitCount := 0 }) ∧
    (∀ (m : TtsCache) (now : Nat) (text : List Char) (b : Nat),
      (getCachedAudio m now text).1 = some b →
      ∃ e, mapGet m (normalizeForCache text) = some e ∧ e.buf = b ∧
        now - e.createdAt < cacheTtlMs) :=
  ⟨runSynth_le, synthesizeStep_new_key, setCachedAudio_evicts_oldest,
    getCachedAudio_ttl⟩

/-- Witness for the C9 theorem: a fresh synthesis of "hello" adds its key
to an empty cache, and a lookup hit on a young entry respects the TTL. -/
theorem ttsCache_spec_witness :
    ("hello".data ∈ (synthesizeStep [] 0 "hello".data (some 3)).map Prod.fst ∧
      ¬ "hello".data ∈ ([] : TtsCache).map Prod.fst) ∧
    ("hello".data.length < 100 ∧
      "hello".data = normalizeForCache "hello".data ∧
      (some 3 : Option Nat).isSome = true) ∧
    ((getCachedAudio [("hi".data, ⟨1000, 7, 0⟩)] 2000 "hi".data).1 = some 7) ∧
    (∃ e, mapGet [("hi".data, ⟨1000, 7, 0⟩)] (normalizeForCache "hi".data) =
        some e ∧ e.buf = 7 ∧ 2000 - e.createdAt < cacheTtlMs) :=
  ⟨⟨by decide, by decide⟩,
    ttsCache_spec.2.1 [] 0 "hello".data (some 3) "hello".data (by decide) (by decide),
    by decide,
    ttsCache_spec.2.2.2 [("hi".data, ⟨1000, 7, 0⟩)] 2000 "hi".data 7 (by decide)⟩
